import Mathlib

/-!
Verification development for the BMAD MCP server's command router,
name validator, fuzzy matcher and secure file resolver.

The definitions below are a shallow embedding of the Python sources
`src/unified_tool.py`, `src/utils/file_reader.py` and
`src/loaders/manifest_loader.py`.  Python strings are modelled as Lean
`String` (sequences of unicode code points, matching Python's `str`),
dictionaries produced by `csv.DictReader` are modelled as records whose
fields are `Option String` (`none` models an absent key, mirroring
`dict.get`), and the filesystem is modelled as a partial map from
canonical absolute paths (component lists) to file contents.
-/

namespace BMAD

/-! ## Python string primitives -/

/-- The ASCII whitespace characters stripped by Python's `str.strip()` and
used by `str.split()` (space, tab, newline, carriage return, vertical tab,
form feed). -/
def isPyWs (c : Char) : Bool :=
  c = ' ' || c = '\t' || c = '\n' || c = '\r' || c = '\x0b' || c = '\x0c'

/-- Python `str.strip()`: drop leading and trailing whitespace. -/
def pyStrip (s : String) : String :=
  ⟨((s.data.dropWhile isPyWs).reverse.dropWhile isPyWs).reverse⟩

/-- Helper for `pySplit`: accumulate the current word (reversed) while
scanning. -/
def pySplitAux : List Char → List Char → List (List Char)
  | [], acc => if acc.isEmpty then [] else [acc.reverse]
  | c :: cs, acc =>
    if isPyWs c then
      if acc.isEmpty then pySplitAux cs [] else acc.reverse :: pySplitAux cs []
    else pySplitAux cs (c :: acc)

/-- Python `str.split()` with no argument: split on runs of whitespace,
discarding empty words. -/
def pySplit (s : String) : List String :=
  (pySplitAux s.data []).map (fun w => ⟨w⟩)

/-- Python `str.lower()` restricted to ASCII (all names handled by the tool
are ASCII; non-ASCII commands are rejected by the security check before any
lowering happens). -/
def pyLower (s : String) : String :=
  ⟨s.data.map Char.toLower⟩

/-- Does the list `pat` occur at the start of `s`?  (Executable
counterpart of `List.IsPrefix`.) -/
def listStartsWith {α : Type} [DecidableEq α] : List α → List α → Bool
  | [], _ => true
  | _ :: _, [] => false
  | p :: ps, c :: cs => p = c && listStartsWith ps cs

/-- Does `pat` occur as a contiguous sublist of `s`? (Executable counterpart
of `List.IsInfix`; Python's `in` for strings.) -/
def listHasSub {α : Type} [DecidableEq α] (pat : List α) : List α → Bool
  | [] => pat.isEmpty
  | c :: cs => listStartsWith pat (c :: cs) || listHasSub pat cs

/-- Python `"\n".join(parts)`. -/
def joinParts : List String → String
  | [] => ""
  | [s] => s
  | s :: rest => s ++ "\n" ++ joinParts rest

/-- Python `", ".join(chars)` for a list of characters. -/
def joinComma : List Char → String
  | [] => ""
  | [c] => c.toString
  | c :: rest => c.toString ++ ", " ++ joinComma rest

/-! ## Data model

Rows of the CSV manifests (`manifest_loader.py` returns `list[dict]`;
`unified_tool.py` accesses rows with `dict.get`, so every field is modelled
as `Option String`, `none` meaning the key is absent). -/

/-- An agent-manifest row, restricted to the fields `unified_tool.py` reads. -/
structure AgentRec where
  name : Option String
  displayName : Option String
  title : Option String
  role : Option String
  module : Option String
  path : Option String
deriving DecidableEq, Repr

/-- A workflow-manifest row, restricted to the fields `unified_tool.py`
reads. -/
structure WorkflowRec where
  name : Option String
  description : Option String
  module : Option String
  path : Option String
  trigger : Option String
deriving DecidableEq, Repr

/-- A task-manifest row (used only by the `*list-tasks` discovery
command). -/
structure TaskRec where
  name : Option String
  description : Option String
  module : Option String
deriving DecidableEq, Repr

/-- `ManifestLoader._load_manifest` keeps a CSV row only if some field is
non-blank: `any(value.strip() for value in row.values())`. -/
def agentRowKept (a : AgentRec) : Bool :=
  [a.name, a.displayName, a.title, a.role, a.module, a.path].any
    (fun v => pyStrip (v.getD "") ≠ "")

/-- Loader filter for agent manifests (`_load_manifest` on
`agent-manifest.csv`): rows whose fields are all blank are discarded;
everything else is kept verbatim. -/
def loadAgentManifest (rows : List AgentRec) : List AgentRec :=
  rows.filter agentRowKept

/-- `ValidationResult` from `unified_tool.py` (defaults: no code, no
message, empty suggestions, exit code 0). -/
structure ValidationResult where
  valid : Bool
  errorCode : Option String
  errorMessage : Option String
  suggestions : List String
  exitCode : Nat
deriving DecidableEq, Repr

/-- Validation constants from `unified_tool.py`. -/
def MIN_NAME_LENGTH : Nat := 2

/-- Maximum accepted name length. -/
def MAX_NAME_LENGTH : Nat := 50

/-- `DANGEROUS_CHARS` from `unified_tool.py` (the backtick is written via
`Char.ofNat 96`). -/
def DANGEROUS_CHARS : List Char :=
  [';', '&', '|', '$', Char.ofNat 96, '<', '>', '\n', '\r', '(', ')']

/-! ## Name-pattern matching

`AGENT_NAME_PATTERN = ^[a-z]+(-[a-z]+)*$` and
`WORKFLOW_NAME_PATTERN = ^[a-z0-9]+(-[a-z0-9]+)*$`.  A string matches
exactly when splitting it on `-` yields only nonempty groups over the
allowed alphabet (so no leading/trailing hyphen and no `--`). -/

/-- Is `c` a lowercase ASCII letter? -/
def isLowerAZ (c : Char) : Bool := 'a' ≤ c && c ≤ 'z'

/-- Is `c` an ASCII digit? -/
def isDigit09 (c : Char) : Bool := '0' ≤ c && c ≤ '9'

/-- Split a character list on `-`, keeping empty groups. -/
def splitOnDash : List Char → List Char → List (List Char)
  | [], acc => [acc.reverse]
  | c :: cs, acc =>
    if c = '-' then acc.reverse :: splitOnDash cs [] else splitOnDash cs (c :: acc)

/-- Decision procedure for the two name regexes: `allowDigits = false`
gives `AGENT_NAME_PATTERN`, `allowDigits = true` gives
`WORKFLOW_NAME_PATTERN`. -/
def namePattern (allowDigits : Bool) (s : String) : Bool :=
  (splitOnDash s.data []).all
    (fun g => !g.isEmpty && g.all (fun c => isLowerAZ c || (allowDigits && isDigit09 c)))

/-! ## Catalog lookups (`unified_tool.py`) -/

/-- `_is_agent_name`: exact, case-sensitive membership. -/
def isAgentName (agents : List AgentRec) (name : String) : Bool :=
  agents.any (fun a => a.name == some name)

/-- `_is_workflow_name`: exact, case-sensitive membership. -/
def isWorkflowName (workflows : List WorkflowRec) (name : String) : Bool :=
  workflows.any (fun w => w.name == some name)

/-- `_get_agent_names`. -/
def agentNames (agents : List AgentRec) : List String :=
  agents.map (fun a => a.name.getD "")

/-- `_get_workflow_names`. -/
def workflowNames (workflows : List WorkflowRec) : List String :=
  workflows.map (fun w => w.name.getD "")

/-- `_check_case_mismatch`: first catalog name equal to the input after
lowering but not equal to it exactly. -/
def checkCaseMismatch (name : String) (validNames : List String) : Option String :=
  validNames.find? (fun v => pyLower v == pyLower name && v != name)

/-! ## Fuzzy matching (`difflib.SequenceMatcher`)

`_find_closest_match` scores each candidate with
`SequenceMatcher(None, input.lower(), candidate.lower()).ratio()`.  The
embedding below reproduces difflib's Ratcliff/Obershelp computation: the
longest matching block (breaking ties towards the smallest start index in
`a`, then in `b`) is found, the procedure recurses on both sides, and the
ratio is `2*M / (len(a)+len(b))` where `M` is the total matched length
(`1.0` when both strings are empty).  difflib's *autojunk* heuristic only
kicks in for sequences of 200 or more elements and is not modelled; the
float ratios are modelled exactly as rationals (all ratios and the 0.70
threshold have denominators far too small for double rounding to affect
any comparison made here). -/

/-- Length of the common run at the heads of the two lists. -/
def commonRun : List Char → List Char → Nat
  | a :: as, b :: bs => if a = b then commonRun as bs + 1 else 0
  | _, _ => 0

/-- Inner loop of `find_longest_match`: scan positions of `b` at a fixed
position `i` of `a`, replacing the candidate only on a strictly longer
match (difflib updates with `k > bestsize`). -/
def flmInner (a b : List Char) (i : Nat) (best : Nat × Nat × Nat) :
    Nat × Nat × Nat :=
  (List.range b.length).foldl
    (fun best j =>
      let k := commonRun (a.drop i) (b.drop j)
      if best.2.2 < k then (i, j, k) else best)
    best

/-- `SequenceMatcher.find_longest_match` on whole sequences: returns
`(i, j, k)` — the longest matching block `a[i:i+k] = b[j:j+k]`, preferring
smaller `i`, then smaller `j`; `(0, 0, 0)` when there is no match. -/
def findLongestMatch (a b : List Char) : Nat × Nat × Nat :=
  (List.range a.length).foldl (fun best i => flmInner a b i best) (0, 0, 0)

/-- Total size of all matching blocks (`get_matching_blocks`): recurse on
both sides of the longest matching block.  The fuel argument dominates the
recursion depth; `ratio` passes `len a + len b`, which is ample since each
recursive call strictly shrinks the pair. -/
def mbSum : Nat → List Char → List Char → Nat
  | 0, _, _ => 0
  | fuel + 1, a, b =>
    let t := findLongestMatch a b
    if t.2.2 = 0 then 0
    else
      mbSum fuel (a.take t.1) (b.take t.2.1) + t.2.2 +
        mbSum fuel (a.drop (t.1 + t.2.2)) (b.drop (t.2.1 + t.2.2))

/-- `SequenceMatcher.ratio()`: `2*M / (len(a)+len(b))`, and `1.0` for two
empty sequences. -/
def seqRatio (a b : List Char) : ℚ :=
  if a.length + b.length = 0 then 1
  else (2 * (mbSum (a.length + b.length) a b : ℚ)) / ((a.length : ℚ) + b.length)

/-- `FUZZY_MATCH_THRESHOLD = 0.70`. -/
def FUZZY_MATCH_THRESHOLD : ℚ := 7 / 10

/-- Ratio between the lowercased input and a lowercased candidate, as
computed inside `_find_closest_match`. -/
def fuzzyScore (inputName validName : String) : ℚ :=
  seqRatio (pyLower inputName).data (pyLower validName).data

/-- `_find_closest_match`: keep the best-scoring candidate, updating only
on `ratio >= 0.70 and ratio > best_score` (so the first of equally scored
candidates wins); start from `(None, 0.0)`. -/
def findClosestMatch (inputName : String) (validNames : List String) :
    Option String :=
  (validNames.foldl
    (fun best validName =>
      let ratio := fuzzyScore inputName validName
      if FUZZY_MATCH_THRESHOLD ≤ ratio ∧ best.2 < ratio then (some validName, ratio)
      else best)
    ((none : Option String), (0 : ℚ))).1

/-- Specification-side invariant of the `_find_closest_match` fold: after
processing a prefix of the candidate list the accumulator either still
holds `(None, 0.0)` with every processed score below the threshold, or
holds the first highest-scoring candidate so far together with its score
(which meets the threshold, dominates all processed scores, and strictly
exceeds the scores of everything before it). -/
def FoldInv (inputName : String) (processed : List String)
    (st : Option String × ℚ) : Prop :=
  (st.1 = none → st.2 = 0 ∧
    ∀ n ∈ processed, fuzzyScore inputName n < FUZZY_MATCH_THRESHOLD) ∧
  (∀ m, st.1 = some m → st.2 = fuzzyScore inputName m ∧
    FUZZY_MATCH_THRESHOLD ≤ fuzzyScore inputName m ∧
    (∀ n ∈ processed, fuzzyScore inputName n ≤ fuzzyScore inputName m) ∧
    ∃ pre suf, processed = pre ++ m :: suf ∧
      ∀ n ∈ pre, fuzzyScore inputName n < fuzzyScore inputName m)

/-! ## Error message formatters (`unified_tool.py`)

The prose is reproduced from the Python f-strings; single quotes are
written with the `\x27` escape. -/

/-- `_format_available_list`. -/
def formatAvailableList (agents : List AgentRec) (workflows : List WorkflowRec)
    (commandType : String) : String :=
  if commandType == "agent" then
    joinParts
      ("Available agents:" ::
        (agents.take 10).map
          (fun a => "  - " ++ a.name.getD "" ++ " (" ++ a.title.getD "" ++ ")") ++
        (if 10 < agents.length then
          ["  ... (" ++ toString (agents.length - 10) ++ " more)"]
        else []))
  else
    joinParts
      ("Available workflows:" ::
        (workflows.take 10).map
          (fun w => "  - *" ++ w.name.getD "" ++ " (" ++ w.description.getD "" ++ ")") ++
        (if 10 < workflows.length then
          ["  ... (" ++ toString (workflows.length - 10) ++
            " more, use list-workflows for complete list)"]
        else []))

/-- `_format_too_many_args_error`. -/
def formatTooManyArgsError (parts : List String) : String :=
  "Error: Too many arguments\n\nThe bmad tool accepts only one argument at a time.\n\nYou provided: " ++
    String.intercalate " " parts ++
    "\n\nDid you mean one of these?\n  - bmad " ++ parts.getD 0 "" ++
    " (load " ++ parts.getD 0 "" ++ " agent)\n  - bmad *" ++ parts.getD 1 "" ++
    " (execute " ++ parts.getD 1 "" ++
    " workflow)\n\nUsage:\n  bmad                  → Load bmad-master\n  bmad <agent-name>     → Load specified agent\n  bmad *<workflow-name> → Execute specified workflow"

/-- `_format_double_asterisk_error`. -/
def formatDoubleAsteriskError (workflowName : String) : String :=
  "Error: Invalid syntax\n\nWorkflows require exactly one asterisk (*) prefix, not two (**).\n\nCorrect syntax:\n  bmad *" ++
    workflowName ++ "\n\nTry: bmad *" ++ workflowName

/-- `_format_missing_workflow_name_error`. -/
def formatMissingWorkflowNameError : String :=
  "Error: Missing workflow name\n\nThe asterisk (*) prefix requires a workflow name.\n\nCorrect syntax:\n  bmad *<workflow-name>\n\nExample:\n  bmad *party-mode\n\nTo list all workflows, try:\n  bmad list-workflows"

/-- `_format_missing_asterisk_error`. -/
def formatMissingAsteriskError (workflowName : String) : String :=
  "Error: Missing workflow prefix\n\n\x27" ++ workflowName ++
    "\x27 appears to be a workflow name, but is missing the asterisk (*) prefix.\n\nWorkflows must be invoked with the asterisk prefix:\n  Correct:   bmad *" ++
    workflowName ++ "\n  Incorrect: bmad " ++ workflowName ++
    "\n\nTo load an agent instead, use:\n  bmad <agent-name>\n\nDid you mean: bmad *" ++
    workflowName ++ "?"

/-- `_format_dangerous_chars_error`. -/
def formatDangerousCharsError (chars : List Char) : String :=
  "Error: Invalid characters detected\n\nThe command contains potentially dangerous characters: " ++
    joinComma chars ++
    "\n\nFor security reasons, the following characters are not allowed:\n  ; & | $ ` < > ( )\n\nAgent and workflow names use only:\n  - Lowercase letters (a-z)\n  - Numbers (0-9, workflows only)\n  - Hyphens (-)\n\nTry: bmad analyst"

/-- `_format_non_ascii_error`. -/
def formatNonAsciiError (chars : List Char) : String :=
  "Error: Non-ASCII characters detected\n\nThe command contains non-ASCII characters: " ++
    joinComma chars ++
    "\n\nAgent and workflow names must use ASCII characters only:\n  - Lowercase letters (a-z)\n  - Numbers (0-9, workflows only)\n  - Hyphens (-)\n\nTry using ASCII equivalents."

/-- `_format_name_too_short_error`. -/
def formatNameTooShortError (agents : List AgentRec) (workflows : List WorkflowRec)
    (name : String) (commandType : String) : String :=
  let entity := if commandType == "agent" then "Agent" else "Workflow"
  let available := formatAvailableList agents workflows commandType
  "Error: " ++ entity ++ " name too short\n\n" ++ entity ++ " name \x27" ++ name ++
    "\x27 is only " ++ toString name.length ++
    " character(s) long. Names must be at least " ++ toString MIN_NAME_LENGTH ++
    " characters.\n\n" ++ available ++ "\n\nTry: bmad <agent-name>"

/-- `_format_name_too_long_error`. -/
def formatNameTooLongError (length : Nat) : String :=
  "Error: Name too long\n\nThe provided name is " ++ toString length ++
    " characters long. Names must be at most " ++ toString MAX_NAME_LENGTH ++
    " characters.\n\nPlease use a shorter agent or workflow name."

/-- `_format_invalid_format_error`. -/
def formatInvalidFormatError (name : String) (commandType : String) : String :=
  if commandType == "agent" then
    "Error: Invalid agent name format\n\nAgent name \x27" ++ name ++
      "\x27 contains invalid characters.\n\nAgent names must:\n  - Use lowercase letters only\n  - Use hyphens (-) to separate words\n  - Start and end with a letter\n  - Not contain numbers or special characters\n\nValid examples:\n  - analyst\n  - bmad-master\n  - game-dev"
  else
    "Error: Invalid workflow name format\n\nWorkflow name \x27" ++ name ++
      "\x27 contains invalid characters.\n\nWorkflow names must:\n  - Use lowercase letters and numbers\n  - Use hyphens (-) to separate words\n  - Start and end with alphanumeric character\n  - Not contain underscores or special characters\n\nValid examples:\n  - party-mode\n  - brainstorm-project\n  - dev-story"

/-- `_format_unknown_agent_error`. -/
def formatUnknownAgentError (agents : List AgentRec) (workflows : List WorkflowRec)
    (name : String) (suggestion : Option String) : String :=
  "Error: Unknown agent \x27" ++ name ++ "\x27\n\n" ++
    (match suggestion with
     | some s => "Did you mean: " ++ s ++ "?\n\n"
     | none => "") ++
    "The agent \x27" ++ name ++ "\x27 is not available in the BMAD system.\n\n" ++
    formatAvailableList agents workflows "agent" ++
    "\nTry: bmad <agent-name>\nExample: bmad analyst"

/-- `_format_unknown_workflow_error`. -/
def formatUnknownWorkflowError (agents : List AgentRec) (workflows : List WorkflowRec)
    (name : String) (suggestion : Option String) : String :=
  "Error: Unknown workflow \x27*" ++ name ++ "\x27\n\n" ++
    (match suggestion with
     | some s => "Did you mean: *" ++ s ++ "?\n\n"
     | none => "") ++
    "The workflow \x27" ++ name ++ "\x27 is not available in the BMAD system.\n\n" ++
    formatAvailableList agents workflows "workflow" ++
    "\nTry: bmad *<workflow-name>\nExample: bmad *party-mode"

/-- `_format_case_mismatch_error`. -/
def formatCaseMismatchError (name correctName : String) : String :=
  "Error: Case sensitivity mismatch\n\nAgent names are case-sensitive. \x27" ++
    name ++ "\x27 does not match \x27" ++ correctName ++
    "\x27.\n\nDid you mean: bmad " ++ correctName ++
    "?\n\nNote: All agent and workflow names use lowercase letters only."

/-! ## Security check and name validation (`unified_tool.py`) -/

/-- `_check_security`: dangerous characters first, then the ASCII check
(`str.isascii()` accepts exactly code points below 128). -/
def checkSecurity (command : String) : ValidationResult :=
  let foundDangerous := DANGEROUS_CHARS.filter (fun c => command.data.contains c)
  if foundDangerous ≠ [] then
    ⟨false, some "INVALID_CHARACTERS",
      some (formatDangerousCharsError foundDangerous), [], 1⟩
  else if ¬ (command.data.all (fun c => c.toNat ≤ 127)) then
    ⟨false, some "NON_ASCII_CHARACTERS",
      some (formatNonAsciiError (command.data.filter (fun c => 127 < c.toNat))), [], 1⟩
  else ⟨true, none, none, [], 0⟩

/-- `_validate_name`: length, then pattern, then existence (with the
case-insensitive check and fuzzy suggestion for agents, the fuzzy
suggestion alone for workflows). -/
def validateName (agents : List AgentRec) (workflows : List WorkflowRec)
    (name : String) (commandType : String) : ValidationResult :=
  if name.length < MIN_NAME_LENGTH then
    ⟨false, some "NAME_TOO_SHORT",
      some (formatNameTooShortError agents workflows name commandType), [], 1⟩
  else if MAX_NAME_LENGTH < name.length then
    ⟨false, some "NAME_TOO_LONG",
      some (formatNameTooLongError name.length), [], 1⟩
  else if ¬ namePattern (commandType == "workflow") name then
    ⟨false, some "INVALID_NAME_FORMAT",
      some (formatInvalidFormatError name commandType), [], 1⟩
  else if commandType == "workflow" then
    if ¬ isWorkflowName workflows name then
      let suggestion := findClosestMatch name (workflowNames workflows)
      ⟨false, some "UNKNOWN_WORKFLOW",
        some (formatUnknownWorkflowError agents workflows name suggestion),
        suggestion.toList, 1⟩
    else ⟨true, none, none, [], 0⟩
  else
    if ¬ isAgentName agents name then
      match checkCaseMismatch name (agentNames agents) with
      | some caseMatch =>
        ⟨false, some "CASE_MISMATCH",
          some (formatCaseMismatchError name caseMatch), [caseMatch], 1⟩
      | none =>
        let suggestion := findClosestMatch name (agentNames agents)
        ⟨false, some "UNKNOWN_AGENT",
          some (formatUnknownAgentError agents workflows name suggestion),
          suggestion.toList, 1⟩
    else ⟨true, none, none, [], 0⟩

/-! ## Command parsing (`_parse_command`) -/

/-- Outcome of `_parse_command`: the Python function returns a pair
`(command_type, name_or_validation_result)` with `command_type` one of
`"agent"`, `"workflow"`, `"error"`. -/
inductive ParseOut where
  | perror (v : ValidationResult)
  | workflowName (n : String)
  | agentName (n : String)
deriving DecidableEq, Repr

/-- `_parse_command`: security check, multiple-argument check, asterisk
handling, missing-asterisk diagnosis. -/
def parseCommand (workflows : List WorkflowRec) (command : String) : ParseOut :=
  let security := checkSecurity command
  if security.valid = false then .perror security
  else if command.data.contains ' ' ∧ 1 < (pySplit command).length then
    .perror ⟨false, some "TOO_MANY_ARGUMENTS",
      some (formatTooManyArgsError (pySplit command)), [], 1⟩
  else if listStartsWith "**".data command.data then
    let workflowName : String := ⟨command.data.drop 2⟩
    .perror ⟨false, some "INVALID_ASTERISK_COUNT",
      some (formatDoubleAsteriskError workflowName), ["*" ++ workflowName], 1⟩
  else if listStartsWith "*".data command.data then
    let workflowName := pyStrip ⟨command.data.drop 1⟩
    if workflowName = "" then
      .perror ⟨false, some "MISSING_WORKFLOW_NAME",
        some formatMissingWorkflowNameError, [], 1⟩
    else .workflowName workflowName
  else
    if isWorkflowName workflows command then
      .perror ⟨false, some "MISSING_ASTERISK",
        some (formatMissingAsteriskError command), ["*" ++ command], 1⟩
    else .agentName command

/-- The spec-level `Command` tagged union, as produced by the dispatch at
the top of `execute` (empty command, the four fixed discovery tokens, then
`_parse_command`). -/
inductive DiscoveryKind where
  | listAgentsK
  | listWorkflowsK
  | listTasksK
  | helpK
deriving DecidableEq, Repr

/-- The `Command` produced for one raw input string. -/
inductive Command where
  | empty
  | discovery (kind : DiscoveryKind)
  | agentRef (name : String)
  | workflowRef (name : String)
  | parseError (v : ValidationResult)
deriving DecidableEq, Repr

/-- The classification performed by `execute` before any handler runs:
trim, test for the empty command, test the four discovery tokens, then
defer to `_parse_command`. -/
def routeCommand (workflows : List WorkflowRec) (raw : String) : Command :=
  let normalized := pyStrip raw
  if normalized = "" then .empty
  else if normalized = "*list-agents" then .discovery .listAgentsK
  else if normalized = "*list-workflows" then .discovery .listWorkflowsK
  else if normalized = "*list-tasks" then .discovery .listTasksK
  else if normalized = "*help" then .discovery .helpK
  else
    match parseCommand workflows normalized with
    | .perror v => .parseError v
    | .workflowName n => .workflowRef n
    | .agentName n => .agentRef n

/-! ## Secure file resolver (`file_reader.py`)

Absolute filesystem paths are modelled as lists of components.  The OS
path canonicalization performed by `Path.resolve()` (symlink following
plus `.`/`..` collapsing) is a parameter `osResolve` of the environment;
`lexResolve` below is its value on a symlink-free filesystem.  The
filesystem itself is a partial map from canonical paths to contents (a
missing entry models `FileNotFoundError`; the other IO failures collapsed
by `read_file` into `FileReadError` are not distinguished further). -/

/-- Errors raised by `FileReader.read_file`: `PathTraversalError` (a
subclass of `FileReadError`) versus the ordinary `FileReadError`.  Each
carries the exception message. -/
inductive FileErr where
  | pathTraversal (msg : String)
  | fileRead (msg : String)
deriving DecidableEq, Repr

/-- The exception text (`str(e)` in Python). -/
def FileErr.text : FileErr → String
  | .pathTraversal m => m
  | .fileRead m => m

/-- The execution environment of one `UnifiedBMADTool`: the canonical
BMAD root (already resolved, so it contains no `..`/`.` components), the
OS path canonicalization, and the filesystem contents. -/
structure Env where
  root : List String
  osResolve : List String → List String
  fs : List String → Option String

/-- Render an absolute path the way `PosixPath` prints it. -/
def renderAbs (comps : List String) : String :=
  "/" ++ String.intercalate "/" comps

/-- Lexical canonicalization: collapse `..` against the accumulated
prefix (`/..` stays at `/`, as in POSIX realpath).  This is what
`Path.resolve()` computes when no symlinks are involved. -/
def lexResolve (comps : List String) : List String :=
  comps.foldl (fun acc c => if c = ".." then acc.dropLast else acc ++ [c]) []

/-- `str.split("/")` on character lists, keeping empty pieces. -/
def splitOnSlash : List Char → List Char → List String
  | [], acc => [⟨acc.reverse⟩]
  | c :: cs, acc =>
    if c = '/' then (⟨acc.reverse⟩ : String) :: splitOnSlash cs []
    else splitOnSlash cs (c :: acc)

/-- Parse a path string as `pathlib` does: absolute iff it starts with
`/`; empty and `.` components disappear at construction, `..` is kept. -/
def parsePath (s : String) : Bool × List String :=
  (listStartsWith "/".data s.data,
    (splitOnSlash s.data []).filter (fun c => c ≠ "" ∧ c ≠ "."))

/-- `FileReader._resolve_path`: interpret a relative path against the
root, then canonicalize. -/
def resolveFilePath (env : Env) (filePath : String) : List String :=
  let p := parsePath filePath
  env.osResolve (if p.1 then p.2 else env.root ++ p.2)

/-- `FileReader._validate_path`: `resolved.relative_to(root)` succeeds
exactly when the canonical root is a prefix of the canonical path. -/
def validateResolved (root resolved : List String) : Except FileErr Unit :=
  if listStartsWith root resolved then Except.ok ()
  else
    Except.error (.pathTraversal
      ("Path traversal attempt detected: " ++ renderAbs resolved ++
        " is outside BMAD root " ++ renderAbs root))

/-- `FileReader.read_file`: resolve, validate, then read. -/
def readFileM (env : Env) (filePath : String) : Except FileErr String :=
  let resolved := resolveFilePath env filePath
  match validateResolved env.root resolved with
  | Except.error e => Except.error e
  | Except.ok _ =>
    match env.fs resolved with
    | some content => Except.ok content
    | none => Except.error (.fileRead ("File not found: " ++ filePath))

/-! ## Placeholder resolution (`_resolve_workflow_placeholders`) -/

/-- The placeholder replaced in every served document. -/
def PROJECT_ROOT_PLACEHOLDER : String := "\x7bproject-root\x7d"

/-- Its replacement. -/
def MCP_RESOURCES_PLACEHOLDER : String := "\x7bmcp-resources\x7d"

/-- Python `str.replace`: replace occurrences left to right without
overlap.  The fuel bounds the scan; each step consumes at least one
character when the pattern is nonempty, so `cs.length` fuel is exact. -/
def replaceAllAux (pat rep : List Char) : Nat → List Char → List Char
  | _, [] => []
  | 0, cs => cs
  | fuel + 1, c :: cs =>
    if listStartsWith pat (c :: cs) then
      rep ++ replaceAllAux pat rep fuel ((c :: cs).drop pat.length)
    else c :: replaceAllAux pat rep fuel cs

/-- `_resolve_workflow_placeholders`:
`content.replace("{project-root}", "{mcp-resources}")` (braces written
here with escapes). -/
def resolvePlaceholders (content : String) : String :=
  ⟨replaceAllAux PROJECT_ROOT_PLACEHOLDER.data MCP_RESOURCES_PLACEHOLDER.data
    content.data.length content.data⟩

/-! ## Response assembly (`unified_tool.py`) -/

/-- The per-workflow context dict built by `_build_workflow_context`. -/
structure WorkflowContext where
  bmadServerRoot : String
  projectRoot : String
  mcpResources : String
  agentManifestPath : String
  agentManifestData : List AgentRec
  agentCount : Nat
deriving DecidableEq, Repr

/-- The result dicts returned by `execute` and its handlers.  Each
constructor mirrors the keys of one `return {...}` site; in particular
`agentNotFound`/`workflowNotFound` model the two fallback dicts that carry
only `success`, `error` and `exit_code` (no `error_code`, no
`suggestions`). -/
inductive ExecResult where
  | agentOk (agentName displayName content : String)
  | agentNotFound (errorMsg : String)
  | workflowOk (name : Option String) (description : String)
      (module : Option String) (path : String)
      (workflowYaml instructions : Option String) (context : WorkflowContext)
  | workflowNotFound (errorMsg : String)
  | listOk (listType : String) (count : Nat) (content : String)
  | helpOk (content : String)
  | errorResult (errorCode : Option String) (errorMsg : Option String)
      (suggestions : List String) (exitCode : Nat)
deriving DecidableEq, Repr

/-- The `success` field of the result dict. -/
def ExecResult.success : ExecResult → Bool
  | .agentOk _ _ _ => true
  | .workflowOk _ _ _ _ _ _ _ => true
  | .listOk _ _ _ => true
  | .helpOk _ => true
  | .agentNotFound _ => false
  | .workflowNotFound _ => false
  | .errorResult _ _ _ _ => false

/-- The `content` payload of a success result (empty for results without
a `content` key). -/
def ExecResult.content : ExecResult → String
  | .agentOk _ _ c => c
  | .listOk _ _ c => c
  | .helpOk c => c
  | _ => ""

/-- The `workflow_yaml` field of a workflow result. -/
def ExecResult.workflowYaml : ExecResult → Option String
  | .workflowOk _ _ _ _ y _ _ => y
  | _ => none

/-- The `instructions` field of a workflow result. -/
def ExecResult.instructions : ExecResult → Option String
  | .workflowOk _ _ _ _ _ i _ => i
  | _ => none

/-- `_format_error_response`. -/
def formatErrorResponse (v : ValidationResult) : ExecResult :=
  .errorResult v.errorCode v.errorMessage v.suggestions v.exitCode

/-- `_get_agent_instructions` (static boilerplate appended to every agent
payload). -/
def agentInstructions : String :=
  "## BMAD Processing Instructions\n\nThis agent is part of the BMAD (BMad Methodology for Agile Development) framework.\n\n**How to Process:**\n1. Read the agent definition markdown to understand role, identity, and principles\n2. Apply the communication style specified in the agent definition\n3. Use the customization YAML for any project-specific overrides\n4. Access available BMAD tools and workflows as needed\n5. Follow the agent\x27s core principles when making decisions\n\n**Agent Activation:**\n- You are now embodying this agent\x27s persona\n- Communicate using the specified communication style\n- Apply the agent\x27s principles to all recommendations\n- Use the agent\x27s identity and role to guide your responses\n\n**Available BMAD Tools:**\nThe following MCP tools are available for workflow execution:\n- `bmad *<workflow-name>` - Execute a BMAD workflow\n- Use the bmad tool to discover and execute workflows as needed\n\nUse these tools to access BMAD workflows and tasks as needed."

/-- `_load_agent`: look the agent up, read its markdown and customization
documents (every read failure — including `PathTraversalError` — is caught
and reported inline), and append the fixed instructions. -/
def loadAgent (env : Env) (agents : List AgentRec) (agentName : String) :
    ExecResult :=
  match agents.find? (fun a => a.name == some agentName) with
  | none =>
    .agentNotFound ("Agent \x27" ++ agentName ++ "\x27 not found in manifest")
  | some agent =>
    let displayName := agent.displayName.getD agentName
    let title := agent.title.getD "BMAD Agent"
    let headerParts := ["# BMAD Agent: " ++ displayName,
      "**Title:** " ++ title ++ "\n"]
    let agentPath := agent.path.getD ""
    let defParts :=
      if agentPath ≠ "" then
        ["## Agent Definition\n", "**File:** `" ++ agentPath ++ "`\n"] ++
        (match readFileM env agentPath with
         | Except.ok raw =>
           ["```markdown", resolvePlaceholders raw, "```\n"]
         | Except.error e =>
           ["[Error reading agent file: " ++ e.text ++ "]\n"])
      else []
    let module := agent.module.getD "bmm"
    let customizePath :=
      "bmad/_cfg/agents/" ++ module ++ "-" ++ agentName ++ ".customize.yaml"
    let custParts :=
      ["## Agent Customization\n", "**File:** `" ++ customizePath ++ "`\n"] ++
      (match readFileM env customizePath with
       | Except.ok raw => ["```yaml", resolvePlaceholders raw, "```\n"]
       | Except.error e =>
         ["[Customization file not found or error: " ++ e.text ++ "]\n"])
    .agentOk agentName displayName
      (joinParts (headerParts ++ defParts ++ custParts ++ [agentInstructions]))

/-- `_list_agents`. -/
def listAgentsR (agents : List AgentRec) : ExecResult :=
  let body :=
    if agents.isEmpty then ["No agents found in manifest.\n"]
    else
      ("Found " ++ toString agents.length ++ " agents:\n") ::
      (agents.enum.map (fun p =>
        let i := p.1 + 1
        let name := p.2.name.getD "unknown"
        let displayName := p.2.displayName.getD name
        let role := p.2.role.getD "No role specified"
        let module := p.2.module.getD "core"
        ["\n" ++ toString i ++ ". **" ++ displayName ++ "** (`" ++ name ++ "`)",
         "   - Role: " ++ role,
         "   - Module: " ++ module,
         "   - Command: `bmad " ++ name ++ "`\n"])).flatten
  .listOk "agents" agents.length
    (joinParts (["# Available BMAD Agents\n"] ++ body ++
      ["\n**Usage:**", "- Load an agent: `bmad <agent-name>`",
       "- Example: `bmad analyst` loads Mary, the Business Analyst\n"]))

/-- `_list_workflows`. -/
def listWorkflowsR (workflows : List WorkflowRec) : ExecResult :=
  let body :=
    if workflows.isEmpty then ["No workflows found in manifest.\n"]
    else
      ("Found " ++ toString workflows.length ++ " workflows:\n") ::
      (workflows.enum.map (fun p =>
        let i := p.1 + 1
        let name := p.2.name.getD "unknown"
        let description := p.2.description.getD "No description"
        let trigger := p.2.trigger.getD name
        let module := p.2.module.getD "core"
        ["\n" ++ toString i ++ ". **" ++ trigger ++ "** - " ++ description,
         "   - Module: " ++ module,
         "   - Command: `bmad *" ++ trigger ++ "`\n"])).flatten
  .listOk "workflows" workflows.length
    (joinParts (["# Available BMAD Workflows\n"] ++ body ++
      ["\n**Usage:**", "- Execute a workflow: `bmad *<workflow-name>`",
       "- Example: `bmad *party-mode` starts group discussion\n"]))

/-- `_list_tasks` on a successfully loaded (possibly empty) task
manifest; a missing or unreadable manifest file yields the empty list. -/
def listTasksR (tasks : List TaskRec) : ExecResult :=
  let body :=
    if tasks.isEmpty then ["No tasks found in manifest.\n"]
    else
      ("Found " ++ toString tasks.length ++ " tasks:\n") ::
      (tasks.enum.map (fun p =>
        let i := p.1 + 1
        let name := p.2.name.getD "unknown"
        let description := p.2.description.getD "No description"
        let module := p.2.module.getD "core"
        ["\n" ++ toString i ++ ". **" ++ name ++ "**",
         "   - " ++ description,
         "   - Module: " ++ module ++ "\n"])).flatten
  .listOk "tasks" tasks.length
    (joinParts (["# Available BMAD Tasks\n"] ++ body ++
      ["\n**Note:** Tasks are referenced within workflows and agent instructions.\n"]))

/-- `_help`. -/
def helpR (env : Env) (agents : List AgentRec) (workflows : List WorkflowRec) :
    ExecResult :=
  .helpOk (joinParts
    ["# BMAD MCP Server - Command Reference\n",
     "## Available Commands\n",
     "### Load Agents",
     "Load and interact with BMAD agents:",
     "- `bmad \"\"` or `bmad` (empty) → Load bmad-master (default agent)",
     "- `bmad <agent-name>` → Load specific agent",
     "- Examples:",
     "  - `bmad analyst` → Load Mary (Business Analyst)",
     "  - `bmad dev` → Load Olivia (Senior Developer)",
     "  - `bmad tea` → Load Murat (Master Test Architect)\n",
     "### Execute Workflows",
     "Run BMAD workflows (prefix with `*`):",
     "- `bmad *<workflow-name>` → Execute workflow",
     "- Examples:",
     "  - `bmad *party-mode` → Start group discussion with all agents",
     "  - `bmad *framework` → Initialize test framework\n",
     "### Discovery Commands",
     "Explore available BMAD resources:",
     "- `bmad *list-agents` → Show all available agents",
     "- `bmad *list-workflows` → Show all available workflows",
     "- `bmad *list-tasks` → Show all available tasks",
     "- `bmad *help` → Show this help message\n",
     "## Quick Start",
     "1. **Discover agents:** `bmad *list-agents`",
     "2. **Load an agent:** `bmad analyst`",
     "3. **Discover workflows:** `bmad *list-workflows`",
     "4. **Run a workflow:** `bmad *party-mode`\n",
     "## Agent vs Workflow",
     "- **Agents** provide personas and interactive menus (no `*` prefix)",
     "- **Workflows** execute automated tasks (use `*` prefix)\n",
     "## MCP Resources",
     "All resources are loaded from: `" ++ renderAbs env.root ++ "`",
     "- Agents: " ++ toString agents.length ++ " available",
     "- Workflows: " ++ toString workflows.length ++ " available\n",
     "For more information about specific agents or workflows, use the `*list-*` commands."])

/-- `str(Path(p).parent)` for the catalog-relative paths stored in the
manifests. -/
def parentDir (p : String) : String :=
  let comps := ((p.splitOn "/").filter (fun c => c ≠ "" ∧ c ≠ ".")).dropLast
  if comps.isEmpty then "." else String.intercalate "/" comps

/-- `_build_workflow_context`. -/
def buildWorkflowContext (env : Env) (agents : List AgentRec) :
    WorkflowContext :=
  ⟨renderAbs env.root, renderAbs env.root, renderAbs env.root,
    renderAbs env.root ++ "/bmad/_cfg/agent-manifest.csv", agents,
    agents.length⟩

/-- `_execute_workflow`: read the workflow YAML (failures reported inline
in the `workflow_yaml` field) and the optional sibling `instructions.md`
(failures silently tolerated). -/
def executeWorkflowR (env : Env) (agents : List AgentRec)
    (workflows : List WorkflowRec) (workflowName : String) : ExecResult :=
  match workflows.find? (fun w => w.name == some workflowName) with
  | none =>
    .workflowNotFound
      ("Workflow \x27" ++ workflowName ++ "\x27 not found in manifest")
  | some workflow =>
    let workflowPath := workflow.path.getD ""
    let workflowYaml : Option String :=
      if workflowPath ≠ "" then
        some (match readFileM env workflowPath with
          | Except.ok raw => resolvePlaceholders raw
          | Except.error e => "[Error reading workflow file: " ++ e.text ++ "]")
      else none
    let instructions : Option String :=
      if workflowPath ≠ "" then
        match readFileM env (parentDir workflowPath ++ "/instructions.md") with
        | Except.ok raw => some (resolvePlaceholders raw)
        | Except.error _ => none
      else none
    .workflowOk workflow.name (workflow.description.getD "") workflow.module
      workflowPath workflowYaml instructions (buildWorkflowContext env agents)

/-- `execute`: route the raw command (`routeCommand`), validate referenced
names, then dispatch to the handlers. -/
def executeM (env : Env) (agents : List AgentRec)
    (workflows : List WorkflowRec) (tasks : List TaskRec) (command : String) :
    ExecResult :=
  match routeCommand workflows command with
  | .empty => loadAgent env agents "bmad-master"
  | .discovery .listAgentsK => listAgentsR agents
  | .discovery .listWorkflowsK => listWorkflowsR workflows
  | .discovery .listTasksK => listTasksR tasks
  | .discovery .helpK => helpR env agents workflows
  | .parseError v => formatErrorResponse v
  | .workflowRef nm =>
    let validation := validateName agents workflows nm "workflow"
    if validation.valid = false then formatErrorResponse validation
    else executeWorkflowR env agents workflows nm
  | .agentRef nm =>
    let validation := validateName agents workflows nm "agent"
    if validation.valid = false then formatErrorResponse validation
    else loadAgent env agents nm

/-! ## Concrete instances used in closed counterexamples and witnesses -/

/-- A concrete environment: root `/opt/bmad`, symlink-free filesystem with
no readable files. -/
def envC : Env := ⟨["opt", "bmad"], lexResolve, fun _ => none⟩

/-- A one-agent catalog whose agent's document path escapes the root. -/
def agentsC : List AgentRec :=
  [⟨some "evil", none, none, none, none, some "../../etc/evil.md"⟩]

/-- A filesystem holding one workflow YAML that contains the
`{project-root}` placeholder. -/
def fsW : List String → Option String := fun p =>
  if p = ["opt", "bmad", "wf", "workflow.yaml"] then
    some "cfg: \x7bproject-root\x7d/x"
  else none

/-- Environment over `fsW`. -/
def envW : Env := ⟨["opt", "bmad"], lexResolve, fsW⟩

/-- A one-workflow catalog pointing at the file of `fsW`. -/
def wfsW : List WorkflowRec :=
  [⟨some "demo", none, none, some "wf/workflow.yaml", none⟩]

/-! ### Lemmas about the string primitives -/

theorem listStartsWith_iff {α : Type} [DecidableEq α] (p s : List α) :
    listStartsWith p s = true ↔ p <+: s := by
  induction p generalizing s with
  | nil => simp [listStartsWith]
  | cons a ps ih =>
    cases s with
    | nil => simp [listStartsWith]
    | cons b cs =>
      simp only [listStartsWith, Bool.and_eq_true, decide_eq_true_eq, ih,
        List.cons_prefix_cons]

theorem listHasSub_iff {α : Type} [DecidableEq α] (p s : List α) :
    listHasSub p s = true ↔ p <:+: s := by
  induction s with
  | nil => simp [listHasSub, List.isEmpty_iff, List.infix_nil]
  | cons c cs ih =>
    simp only [listHasSub, Bool.or_eq_true, listStartsWith_iff, ih,
      List.infix_cons_iff]

theorem joinParts_cons (s : String) (rest : List String) (h : rest ≠ []) :
    joinParts (s :: rest) = s ++ "\n" ++ joinParts rest := by
  cases rest with
  | nil => exact absurd rfl h
  | cons a l => rfl

/-- Any part of a joined list occurs as a contiguous substring of the join. -/
theorem mem_infix_joinParts (s : String) (l : List String) (h : s ∈ l) :
    s.data <:+: (joinParts l).data := by
  induction l with
  | nil => cases h
  | cons a rest ih =>
    cases h with
    | head =>
      cases rest with
      | nil => exact List.infix_refl _
      | cons b l' =>
        rw [joinParts_cons _ _ (by simp)]
        exact ⟨[], '\n' :: (joinParts (b :: l')).data,
          by simp [String.data_append]⟩
    | tail _ hmem =>
      cases rest with
      | nil => cases hmem
      | cons b l' =>
        rw [joinParts_cons _ _ (by simp)]
        refine List.IsInfix.trans (ih hmem) ?_
        exact ⟨a.data ++ ['\n'], [], by simp [String.data_append]⟩

theorem charToString_data (c : Char) : (Char.toString c).data = [c] := rfl

/-- Every joined character appears in the joined string. -/
theorem mem_joinComma (c : Char) (cs : List Char) (h : c ∈ cs) :
    c ∈ (joinComma cs).data := by
  induction cs with
  | nil => cases h
  | cons a rest ih =>
    cases rest with
    | nil =>
      rw [show joinComma [a] = a.toString from rfl, charToString_data]
      simpa using h
    | cons b l =>
      rw [show joinComma (a :: b :: l) = a.toString ++ ", " ++ joinComma (b :: l)
        from rfl]
      simp only [String.data_append, charToString_data, List.mem_append]
      rcases List.mem_cons.mp h with h | h
      · exact Or.inl (Or.inl (by simp [h]))
      · exact Or.inr (ih h)


/-! ## Claim theorems -/

/-- Claim C4: parsing is total — for every raw input string the
classification performed by `execute` over `_parse_command` produces
exactly one `Command` value, and that value is one of the five variants
Empty / DiscoveryCommand / AgentReference / WorkflowReference /
ParseError.  (Totality — never an unhandled exception — holds because
`routeCommand` is a total function of the embedding.) -/
theorem c4_parsing_total (workflows : List WorkflowRec) (raw : String) :
    (∃! c : Command, routeCommand workflows raw = c) ∧
    (routeCommand workflows raw = .empty ∨
      (∃ k, routeCommand workflows raw = .discovery k) ∨
      (∃ n, routeCommand workflows raw = .agentRef n) ∨
      (∃ n, routeCommand workflows raw = .workflowRef n) ∨
      (∃ v, routeCommand workflows raw = .parseError v)) := by
  refine ⟨⟨routeCommand workflows raw, rfl, fun c h => h.symm⟩, ?_⟩
  cases h : routeCommand workflows raw
  · exact Or.inl rfl
  · exact Or.inr (Or.inl ⟨_, rfl⟩)
  · exact Or.inr (Or.inr (Or.inl ⟨_, rfl⟩))
  · exact Or.inr (Or.inr (Or.inr (Or.inl ⟨_, rfl⟩)))
  · exact Or.inr (Or.inr (Or.inr (Or.inr ⟨_, rfl⟩)))

/-- Claim C8: length boundaries in `_validate_name` — length 1 is
rejected as `NAME_TOO_SHORT`, length 51 as `NAME_TOO_LONG`, and names of
length exactly 2 or exactly 50 that match the kind's format pattern pass
both length checks. -/
theorem c8_length_boundaries (agents : List AgentRec)
    (workflows : List WorkflowRec) (name : String) (commandType : String) :
    (name.length = 1 →
      (validateName agents workflows name commandType).errorCode =
        some "NAME_TOO_SHORT") ∧
    (name.length = 51 →
      (validateName agents workflows name commandType).errorCode =
        some "NAME_TOO_LONG") ∧
    ((name.length = 2 ∨ name.length = 50) →
      namePattern (commandType == "workflow") name = true →
      (validateName agents workflows name commandType).errorCode ≠
          some "NAME_TOO_SHORT" ∧
        (validateName agents workflows name commandType).errorCode ≠
          some "NAME_TOO_LONG") := by
  refine ⟨?_, ?_, ?_⟩
  · intro h1
    simp only [validateName, MIN_NAME_LENGTH, MAX_NAME_LENGTH, h1]
    norm_num
  · intro h51
    simp only [validateName, MIN_NAME_LENGTH, MAX_NAME_LENGTH, h51]
    norm_num
  · intro hlen hpat
    have h2 : ¬ name.length < MIN_NAME_LENGTH := by
      rcases hlen with h | h <;> simp [MIN_NAME_LENGTH, h]
    have h50 : ¬ MAX_NAME_LENGTH < name.length := by
      rcases hlen with h | h <;> simp [MAX_NAME_LENGTH, h]
    constructor <;>
      (simp only [validateName, h2, if_false, h50, hpat]
       repeat' split
       all_goals simp)

/-- Claim C8 witness: the boundary behaviour at concrete names of lengths
1, 2, 50 and 51. -/
theorem c8_length_boundaries_witness :
    (validateName [] [] "x" "agent").errorCode = some "NAME_TOO_SHORT" ∧
    (validateName [] []
        "aaaaaaaaaaaaaaaaaaaaaaaaaaaaaaaaaaaaaaaaaaaaaaaaaaa" "agent").errorCode =
      some "NAME_TOO_LONG" ∧
    (validateName [] [] "ab" "agent").errorCode ≠ some "NAME_TOO_SHORT" ∧
    (validateName [] []
        "aaaaaaaaaaaaaaaaaaaaaaaaaaaaaaaaaaaaaaaaaaaaaaaaaa" "agent").errorCode ≠
      some "NAME_TOO_LONG" := by
  refine ⟨(c8_length_boundaries [] [] "x" "agent").1 (by decide),
    (c8_length_boundaries [] [] _ "agent").2.1 (by decide),
    ((c8_length_boundaries [] [] "ab" "agent").2.2 (by decide) (by decide)).1,
    ((c8_length_boundaries [] [] _ "agent").2.2 (by decide) (by decide)).2⟩

/-- Claim C3 counterexample: against a catalog containing `analyst`, the
input `Analyst` is rejected by the format check (which runs before the
case-insensitive comparison), so validation returns
`INVALID_NAME_FORMAT`, not `CASE_MISMATCH`. -/
theorem c3_counterexample :
    (validateName [⟨some "analyst", none, none, none, none, none⟩] []
        "Analyst" "agent").errorCode = some "INVALID_NAME_FORMAT" ∧
      (validateName [⟨some "analyst", none, none, none, none, none⟩] []
          "Analyst" "agent").errorCode ≠ some "CASE_MISMATCH" := by
  constructor <;> decide

/-- Claim C3 (amended): for an agent name that passes the length and
format checks, is not an exact catalog name, and matches some catalog name
case-insensitively, validation returns `CASE_MISMATCH` with that exact
catalog name as the sole suggestion (rather than `UNKNOWN_AGENT`).  The
inputs reaching this branch are necessarily all-lowercase, so the
mismatching case lies in the catalog name. -/
theorem c3_case_mismatch (agents : List AgentRec) (workflows : List WorkflowRec)
    (name caseMatch : String)
    (hlen1 : MIN_NAME_LENGTH ≤ name.length)
    (hlen2 : name.length ≤ MAX_NAME_LENGTH)
    (hpat : namePattern false name = true)
    (hnot : isAgentName agents name = false)
    (hcase : checkCaseMismatch name (agentNames agents) = some caseMatch) :
    validateName agents workflows name "agent" =
      ⟨false, some "CASE_MISMATCH",
        some (formatCaseMismatchError name caseMatch), [caseMatch], 1⟩ := by
  have h1 : ¬ name.length < MIN_NAME_LENGTH := by omega
  have h2 : ¬ MAX_NAME_LENGTH < name.length := by omega
  simp only [validateName, h1, if_false, h2, hpat, hnot, hcase,
    show ("agent" == "workflow") = false from rfl]
  simp

/-- Claim C3 witness: input `analyst` against a catalog whose entry is
spelled `Analyst` yields `CASE_MISMATCH` suggesting `Analyst`. -/
theorem c3_case_mismatch_witness :
    validateName [⟨some "Analyst", none, none, none, none, none⟩] []
        "analyst" "agent" =
      ⟨false, some "CASE_MISMATCH",
        some (formatCaseMismatchError "analyst" "Analyst"), ["Analyst"], 1⟩ :=
  c3_case_mismatch _ _ _ _ (by decide) (by decide) (by decide) (by decide)
    (by decide)

/-- Claim C6 counterexample: the loader keeps any row with a non-blank
field, so a catalog can contain the agent name `x`; validating `x` fails
with `NAME_TOO_SHORT`, so the unconditional round-trip
"every catalog name validates" is false. -/
theorem c6_counterexample :
    (∃ row ∈ loadAgentManifest [⟨some "x", none, some "Tiny", none, none, none⟩],
        row.name = some "x") ∧
      (validateName
          (loadAgentManifest [⟨some "x", none, some "Tiny", none, none, none⟩])
          [] "x" "agent").valid = false := by
  constructor
  · exact ⟨⟨some "x", none, some "Tiny", none, none, none⟩, by decide, rfl⟩
  · decide

/-- Claim C6 (amended): the round-trip holds for every catalog name that
passes the length and format checks of its kind: such a name validates
with `valid = true`. -/
theorem c6_roundtrip (agents : List AgentRec) (workflows : List WorkflowRec)
    (name : String) (kind : String)
    (hmem : (kind = "agent" ∧ isAgentName agents name = true) ∨
      (kind = "workflow" ∧ isWorkflowName workflows name = true))
    (hlen1 : MIN_NAME_LENGTH ≤ name.length)
    (hlen2 : name.length ≤ MAX_NAME_LENGTH)
    (hpat : namePattern (kind == "workflow") name = true) :
    (validateName agents workflows name kind).valid = true := by
  have h1 : ¬ name.length < MIN_NAME_LENGTH := by omega
  have h2 : ¬ MAX_NAME_LENGTH < name.length := by omega
  rcases hmem with ⟨hk, hmem⟩ | ⟨hk, hmem⟩ <;> subst hk
  · have hp : namePattern false name = true := by
      simpa [show ("agent" == "workflow") = false from by decide] using hpat
    simp [validateName, h1, h2, hp, hmem]
  · have hp : namePattern true name = true := by
      simpa [show ("workflow" == "workflow") = true from by decide] using hpat
    simp [validateName, h1, h2, hp, hmem]

/-- Claim C6 witness: both kinds of catalog members validate. -/
theorem c6_roundtrip_witness :
    (validateName [⟨some "analyst", none, none, none, none, none⟩] []
        "analyst" "agent").valid = true ∧
      (validateName [] [⟨some "party-mode", none, none, none, none⟩]
          "party-mode" "workflow").valid = true :=
  ⟨c6_roundtrip _ _ _ _ (Or.inl ⟨rfl, by decide⟩) (by decide) (by decide)
      (by decide),
    c6_roundtrip _ _ _ _ (Or.inr ⟨rfl, by decide⟩) (by decide) (by decide)
      (by decide)⟩

/-- When the trimmed command is neither empty nor a discovery token,
`execute` defers to `_parse_command`. -/
theorem routeCommand_eq_parse (workflows : List WorkflowRec) (raw : String)
    (hne : pyStrip raw ≠ "")
    (h1 : pyStrip raw ≠ "*list-agents") (h2 : pyStrip raw ≠ "*list-workflows")
    (h3 : pyStrip raw ≠ "*list-tasks") (h4 : pyStrip raw ≠ "*help") :
    routeCommand workflows raw =
      match parseCommand workflows (pyStrip raw) with
      | .perror v => Command.parseError v
      | .workflowName n => Command.workflowRef n
      | .agentName n => Command.agentRef n := by
  simp only [routeCommand, hne, h1, h2, h3, h4, if_false]

/-- A command containing a dangerous character is rejected by
`_check_security` with `INVALID_CHARACTERS` before any structural
parsing. -/
theorem checkSecurity_dangerous (cmd : String)
    (hfound : DANGEROUS_CHARS.filter (fun c => cmd.data.contains c) ≠ []) :
    checkSecurity cmd =
      ⟨false, some "INVALID_CHARACTERS",
        some (formatDangerousCharsError
          (DANGEROUS_CHARS.filter (fun c => cmd.data.contains c))), [], 1⟩ := by
  simp only [checkSecurity]
  rw [if_pos hfound]

theorem parseCommand_dangerous (workflows : List WorkflowRec) (cmd : String)
    (hfound : DANGEROUS_CHARS.filter (fun c => cmd.data.contains c) ≠ []) :
    parseCommand workflows cmd =
      .perror ⟨false, some "INVALID_CHARACTERS",
        some (formatDangerousCharsError
          (DANGEROUS_CHARS.filter (fun c => cmd.data.contains c))), [], 1⟩ := by
  have hcs := checkSecurity_dangerous cmd hfound
  simp only [parseCommand, hcs]
  rw [if_pos trivial]

/-- A dangerous-character-free command containing a non-ASCII character is
rejected by `_check_security` with `NON_ASCII_CHARACTERS`. -/
theorem checkSecurity_nonAscii (cmd : String)
    (hnone : DANGEROUS_CHARS.filter (fun c => cmd.data.contains c) = [])
    (hsome : ¬ cmd.data.all (fun c => c.toNat ≤ 127)) :
    checkSecurity cmd =
      ⟨false, some "NON_ASCII_CHARACTERS",
        some (formatNonAsciiError
          (cmd.data.filter (fun c => 127 < c.toNat))), [], 1⟩ := by
  simp only [checkSecurity]
  rw [if_neg (fun h => h hnone), if_pos hsome]

theorem parseCommand_nonAscii (workflows : List WorkflowRec) (cmd : String)
    (hnone : DANGEROUS_CHARS.filter (fun c => cmd.data.contains c) = [])
    (hsome : ¬ cmd.data.all (fun c => c.toNat ≤ 127)) :
    parseCommand workflows cmd =
      .perror ⟨false, some "NON_ASCII_CHARACTERS",
        some (formatNonAsciiError
          (cmd.data.filter (fun c => 127 < c.toNat))), [], 1⟩ := by
  have hcs := checkSecurity_nonAscii cmd hnone hsome
  simp only [parseCommand, hcs]
  rw [if_pos trivial]

/-- Claim C5: the security check runs before all structural parsing.  For
every input whose trimmed form is non-empty and not a discovery token:
if it contains a dangerous character (`; & | $ \` < > ( )`, newline or
carriage return) the result is a `ParseError` with code
`INVALID_CHARACTERS` whose message lists every offending character —
regardless of any spaces, asterisks or other surrounding content;
otherwise, if it contains a character above code point 127, the result is
a `ParseError` with code `NON_ASCII_CHARACTERS` listing the offenders.
In both cases the command never reaches name validation (the result is a
`parseError`, not an agent or workflow reference). -/
theorem c5_security_check (workflows : List WorkflowRec) (raw : String)
    (hne : pyStrip raw ≠ "")
    (hdisc : pyStrip raw ∉
      (["*list-agents", "*list-workflows", "*list-tasks", "*help"] : List String)) :
    ((∃ c ∈ DANGEROUS_CHARS, c ∈ (pyStrip raw).data) →
      routeCommand workflows raw =
        .parseError ⟨false, some "INVALID_CHARACTERS",
          some (formatDangerousCharsError
            (DANGEROUS_CHARS.filter (fun c => (pyStrip raw).data.contains c))),
          [], 1⟩ ∧
      ∀ c ∈ DANGEROUS_CHARS, c ∈ (pyStrip raw).data →
        c ∈ (formatDangerousCharsError
          (DANGEROUS_CHARS.filter (fun c => (pyStrip raw).data.contains c))).data) ∧
    ((∀ c ∈ DANGEROUS_CHARS, c ∉ (pyStrip raw).data) →
      (∃ c ∈ (pyStrip raw).data, 127 < c.toNat) →
      routeCommand workflows raw =
        .parseError ⟨false, some "NON_ASCII_CHARACTERS",
          some (formatNonAsciiError
            ((pyStrip raw).data.filter (fun c => 127 < c.toNat))), [], 1⟩ ∧
      ∀ c ∈ (pyStrip raw).data, 127 < c.toNat →
        c ∈ (formatNonAsciiError
          ((pyStrip raw).data.filter (fun c => 127 < c.toNat))).data) := by
  simp only [List.mem_cons, List.mem_singleton, not_or] at hdisc
  have hroute := routeCommand_eq_parse workflows raw hne hdisc.1 hdisc.2.1
    hdisc.2.2.1 (by simpa using hdisc.2.2.2)
  constructor
  · rintro ⟨c, hc, hin⟩
    have hmemf : c ∈ DANGEROUS_CHARS.filter
        (fun c => (pyStrip raw).data.contains c) :=
      List.mem_filter.mpr ⟨hc, by simpa [List.elem_iff] using hin⟩
    have hfound : DANGEROUS_CHARS.filter
        (fun c => (pyStrip raw).data.contains c) ≠ [] :=
      List.ne_nil_of_mem hmemf
    refine ⟨?_, ?_⟩
    · rw [hroute, parseCommand_dangerous workflows _ hfound]
    · intro d hd hdin
      have hdmem : d ∈ DANGEROUS_CHARS.filter
          (fun c => (pyStrip raw).data.contains c) :=
        List.mem_filter.mpr ⟨hd, by simpa [List.elem_iff] using hdin⟩
      simp only [formatDangerousCharsError, String.data_append, List.mem_append]
      exact Or.inl (Or.inr (mem_joinComma _ _ hdmem))
  · intro hnodanger
    rintro ⟨c, hc, hgt⟩
    have hnone : DANGEROUS_CHARS.filter
        (fun c => (pyStrip raw).data.contains c) = [] := by
      rw [List.filter_eq_nil_iff]
      intro d hd
      simpa [List.elem_iff] using hnodanger d hd
    have hsome : ¬ (pyStrip raw).data.all (fun c => c.toNat ≤ 127) := by
      simp only [List.all_eq_true, not_forall]
      exact ⟨c, hc, by simpa using hgt⟩
    refine ⟨?_, ?_⟩
    · rw [hroute, parseCommand_nonAscii workflows _ hnone hsome]
    · intro d hd hdgt
      have hdmem : d ∈ (pyStrip raw).data.filter (fun c => 127 < c.toNat) :=
        List.mem_filter.mpr ⟨hd, by simpa using hdgt⟩
      simp only [formatNonAsciiError, String.data_append, List.mem_append]
      exact Or.inl (Or.inr (mem_joinComma _ _ hdmem))

/-- Claim C5 witness: `"analyst; (rm x)"` (dangerous characters amid
spaces) and `"café"` (non-ASCII) at a concrete catalog. -/
theorem c5_security_check_witness :
    (routeCommand [] "analyst; (rm x)" =
      .parseError ⟨false, some "INVALID_CHARACTERS",
        some (formatDangerousCharsError
          (DANGEROUS_CHARS.filter
            (fun c => (pyStrip "analyst; (rm x)").data.contains c))), [], 1⟩ ∧
      (';' ∈ (formatDangerousCharsError
        (DANGEROUS_CHARS.filter
          (fun c => (pyStrip "analyst; (rm x)").data.contains c))).data)) ∧
    routeCommand [] "café" =
      .parseError ⟨false, some "NON_ASCII_CHARACTERS",
        some (formatNonAsciiError
          ((pyStrip "café").data.filter (fun c => 127 < c.toNat))), [], 1⟩ := by
  have h0 := c5_security_check [] "analyst; (rm x)" (by decide) (by decide)
  have h1 := c5_security_check [] "café" (by decide) (by decide)
  have hd := h0.1 ⟨';', by decide, by decide⟩
  have ha := h1.2 (by decide) ⟨'é', by decide, by decide⟩
  exact ⟨⟨hd.1, hd.2 ';' (by decide) (by decide)⟩, ha.1⟩

/-! ### Lemmas for the secure file resolver -/

theorem lexResolve_step (acc : List String) (c : String) :
    (if c = ".." then acc.dropLast else acc ++ [c]) =
      List.foldl (fun acc c => if c = ".." then acc.dropLast else acc ++ [c])
        acc [c] := rfl

theorem lexResolve_append (xs ys : List String) :
    lexResolve (xs ++ ys) =
      List.foldl (fun acc c => if c = ".." then acc.dropLast else acc ++ [c])
        (lexResolve xs) ys := by
  simp [lexResolve, List.foldl_append]

theorem foldl_lex_no_dotdot (acc : List String) (xs : List String)
    (h : ".." ∉ xs) :
    List.foldl (fun acc c => if c = ".." then acc.dropLast else acc ++ [c])
      acc xs = acc ++ xs := by
  induction xs generalizing acc with
  | nil => simp
  | cons c cs ih =>
    have hc : c ≠ ".." := fun hc => h (by simp [hc])
    simp only [List.foldl_cons, if_neg hc]
    rw [ih _ (fun hm => h (by simp [hm]))]
    simp

theorem lexResolve_no_dotdot (xs : List String) (h : ".." ∉ xs) :
    lexResolve xs = xs := by
  simpa using foldl_lex_no_dotdot [] xs h

/-- `read_file` fails with `PathTraversalError` whenever the canonical
root is not a prefix of the canonicalized path. -/
theorem readFileM_traversal (env : Env) (p : String)
    (hout : listStartsWith env.root (resolveFilePath env p) = false) :
    readFileM env p = Except.error (.pathTraversal
      ("Path traversal attempt detected: " ++
        renderAbs (resolveFilePath env p) ++ " is outside BMAD root " ++
        renderAbs env.root)) := by
  simp only [readFileM, validateResolved, hout]
  simp

/-- A nonempty canonical root not itself equal to `/etc` and not ending in
`etc/passwd` is never a prefix of `root/../../etc/passwd` resolved,
i.e. of `dropLast² root ++ [etc, passwd]`. -/
theorem root_not_prefix_upup (root : List String) (hne : root ≠ [])
    (hetc : root ≠ ["etc"]) (hsuf : ¬ (["etc", "passwd"] <:+ root)) :
    listStartsWith root (root.dropLast.dropLast ++ ["etc", "passwd"]) =
      false := by
  by_contra hnot
  have hpre : root <+: root.dropLast.dropLast ++ ["etc", "passwd"] :=
    (listStartsWith_iff _ _).mp (by simpa using hnot)
  rcases root.eq_nil_or_concat with hnil | ⟨as, a, hconcat⟩
  · exact hne hnil
  rcases as.eq_nil_or_concat with hnil2 | ⟨bs, b, hconcat2⟩
  · subst hnil2
    subst hconcat
    simp only [List.concat_eq_append, List.nil_append] at hpre hetc
    simp only [List.dropLast_single, List.dropLast_nil, List.nil_append]
      at hpre
    have ha := (List.cons_prefix_cons.mp hpre).1
    exact hetc (by simp [ha])
  · subst hconcat2
    subst hconcat
    simp only [List.concat_eq_append] at hpre hsuf
    have hdl : ((bs ++ [b]) ++ [a]).dropLast.dropLast = bs := by
      simp [List.dropLast_concat]
    rw [hdl] at hpre
    have hlen : ((bs ++ [b]) ++ [a]).length =
        (bs ++ ["etc", "passwd"]).length := by simp
    have heq : (bs ++ [b]) ++ [a] = bs ++ ["etc", "passwd"] :=
      List.IsPrefix.eq_of_length hpre hlen
    exact hsuf ⟨bs, heq.symm⟩

/-- Claim C2: the canonical-path descendant check.  First two conjuncts
(for an arbitrary OS canonicalization, i.e. whatever symlink structure the
filesystem has): whenever the canonicalized path is not a descendant of the
canonical root, `read_file` raises `PathTraversalError`, and content is
returned only for descendants — the check applies to the output of the
canonicalization, hence after symlink resolution.  Third conjunct: on a
symlink-free filesystem, `read("../../etc/passwd")` raises
`PathTraversalError` for every canonical root other than `/`, `/etc`, or a
directory itself named `.../etc/passwd` (for those roots the canonical
target genuinely lies inside the root). -/
theorem c2_path_traversal (env : Env) (p : String) :
    (listStartsWith env.root (resolveFilePath env p) = false →
      readFileM env p = Except.error (.pathTraversal
        ("Path traversal attempt detected: " ++
          renderAbs (resolveFilePath env p) ++ " is outside BMAD root " ++
          renderAbs env.root))) ∧
    (∀ content, readFileM env p = Except.ok content →
      listStartsWith env.root (resolveFilePath env p) = true) ∧
    (env.osResolve = lexResolve → ".." ∉ env.root → env.root ≠ [] →
      env.root ≠ ["etc"] → ¬ (["etc", "passwd"] <:+ env.root) →
      ∃ msg, readFileM env "../../etc/passwd" =
        Except.error (.pathTraversal msg)) := by
  refine ⟨readFileM_traversal env p, ?_, ?_⟩
  · intro content hok
    by_contra hnot
    have hfalse : listStartsWith env.root (resolveFilePath env p) = false := by
      simpa using hnot
    rw [readFileM_traversal env p hfalse] at hok
    exact Except.noConfusion hok
  · intro hres hdd hne hetc hsuf
    have hcomp : parsePath "../../etc/passwd" =
        (false, ["..", "..", "etc", "passwd"]) := by decide
    have hresolved : resolveFilePath env "../../etc/passwd" =
        env.root.dropLast.dropLast ++ ["etc", "passwd"] := by
      simp only [resolveFilePath, hcomp, hres]
      rw [if_neg (by simp)]
      rw [show env.root ++ ["..", "..", "etc", "passwd"] =
        (env.root ++ ["..", ".."]) ++ ["etc", "passwd"] by simp,
        lexResolve_append]
      rw [foldl_lex_no_dotdot _ _ (by simp)]
      congr 1
      rw [lexResolve_append, lexResolve_no_dotdot env.root hdd]
      rfl
    have hout : listStartsWith env.root
        (resolveFilePath env "../../etc/passwd") = false := by
      rw [hresolved]
      exact root_not_prefix_upup env.root hne hetc hsuf
    exact ⟨_, readFileM_traversal env _ hout⟩

/-- Claim C2 witness: with root `/opt/bmad` on a symlink-free filesystem,
reading `../../etc/passwd` raises `PathTraversalError`. -/
theorem c2_path_traversal_witness :
    ∃ msg, readFileM ⟨["opt", "bmad"], lexResolve, fun _ => none⟩
        "../../etc/passwd" = Except.error (.pathTraversal msg) :=
  (c2_path_traversal ⟨["opt", "bmad"], lexResolve, fun _ => none⟩
    "../../etc/passwd").2.2 rfl (by decide) (by decide) (by decide)
    (by decide)

/-- Claim C1 counterexample: a request for an agent whose document path
resolves outside the secure root returns a *success* result whose payload
embeds the `PathTraversalError` text inline — the error is downgraded, not
fatal to the request. -/
theorem c1_counterexample :
    (executeM envC agentsC [] [] "evil").success = true ∧
    listHasSub
      "[Error reading agent file: Path traversal attempt detected: /etc/evil.md is outside BMAD root /opt/bmad]".data
      (executeM envC agentsC [] [] "evil").content.data = true ∧
    readFileM envC "../../etc/evil.md" =
      Except.error (.pathTraversal
        "Path traversal attempt detected: /etc/evil.md is outside BMAD root /opt/bmad") := by
  refine ⟨by decide, by decide, by rfl⟩

/-- Claim C1 (amended): `PathTraversalError` is fatal inside the file
reader — `read_file` never returns content for an out-of-root path — but
the request handlers `_load_agent` and `_execute_workflow` catch every
read exception, embed its message inline ("[Error reading …]") and return
a success result, so at the request level a `PathTraversalError` on the
agent markdown or workflow YAML is downgraded to inline text in a success
payload.  -/
theorem c1_inline_downgrade (env : Env) (agents : List AgentRec)
    (agentName : String) (agent : AgentRec) (msg : String)
    (hfind : agents.find? (fun a => a.name == some agentName) = some agent)
    (hpath : agent.path.getD "" ≠ "")
    (hread : readFileM env (agent.path.getD "") =
      Except.error (.pathTraversal msg)) :
    (loadAgent env agents agentName).success = true ∧
    ("[Error reading agent file: " ++ msg ++ "]\n").data <:+:
      (loadAgent env agents agentName).content.data ∧
    (∀ content, readFileM env (agent.path.getD "") ≠ Except.ok content) ∧
    (∀ (workflows : List WorkflowRec) (wname : String) (w : WorkflowRec)
        (wmsg : String),
      workflows.find? (fun x => x.name == some wname) = some w →
      w.path.getD "" ≠ "" →
      readFileM env (w.path.getD "") = Except.error (.pathTraversal wmsg) →
      (executeWorkflowR env agents workflows wname).success = true ∧
      (executeWorkflowR env agents workflows wname).workflowYaml =
        some ("[Error reading workflow file: " ++ wmsg ++ "]")) := by
  refine ⟨?_, ?_, ?_, ?_⟩
  · simp only [loadAgent, hfind]
    rfl
  · simp only [loadAgent, hfind, ExecResult.content]
    rw [if_pos hpath, hread]
    exact mem_infix_joinParts _ _ (by simp [FileErr.text])
  · intro content hok
    rw [hread] at hok
    exact Except.noConfusion hok
  · intro workflows wname w wmsg hfw hpw hrw
    constructor
    · simp only [executeWorkflowR, hfw]
      rfl
    · simp only [executeWorkflowR, hfw, ExecResult.workflowYaml]
      rw [if_pos hpw, hrw]
      rfl

/-- Claim C1 amended-theorem witness: the concrete out-of-root agent of
`agentsC` yields a success result embedding the traversal message. -/
theorem c1_inline_downgrade_witness :
    (loadAgent envC agentsC "evil").success = true ∧
    ("[Error reading agent file: Path traversal attempt detected: /etc/evil.md is outside BMAD root /opt/bmad]\n").data <:+:
      (loadAgent envC agentsC "evil").content.data := by
  have h := c1_inline_downgrade envC agentsC "evil"
    ⟨some "evil", none, none, none, none, some "../../etc/evil.md"⟩
    "Path traversal attempt detected: /etc/evil.md is outside BMAD root /opt/bmad"
    (by decide) (by decide) (by rfl)
  exact ⟨h.1, h.2.1⟩

/-! ### Shape lemmas for the result contract -/

theorem loadAgent_shape (env : Env) (agents : List AgentRec) (n : String) :
    (loadAgent env agents n).success = true ∨
      ∃ m, loadAgent env agents n = .agentNotFound m := by
  rcases h : agents.find? (fun a => a.name == some n) with _ | agent
  · exact Or.inr ⟨"Agent \x27" ++ n ++ "\x27 not found in manifest",
      by simp [loadAgent, h]⟩
  · exact Or.inl (by simp only [loadAgent, h]; rfl)

theorem executeWorkflowR_shape (env : Env) (agents : List AgentRec)
    (workflows : List WorkflowRec) (n : String) :
    (executeWorkflowR env agents workflows n).success = true ∨
      ∃ m, executeWorkflowR env agents workflows n = .workflowNotFound m := by
  rcases h : workflows.find? (fun w => w.name == some n) with _ | w
  · exact Or.inr ⟨"Workflow \x27" ++ n ++ "\x27 not found in manifest",
      by simp [executeWorkflowR, h]⟩
  · exact Or.inl (by simp only [executeWorkflowR, h]; rfl)

theorem checkSecurity_valid (cmd : String)
    (h1 : ¬ DANGEROUS_CHARS.filter (fun c => cmd.data.contains c) ≠ [])
    (h2 : cmd.data.all (fun c => c.toNat ≤ 127)) :
    checkSecurity cmd = ⟨true, none, none, [], 0⟩ := by
  simp only [checkSecurity]
  rw [if_neg h1, if_neg (not_not_intro h2)]

theorem checkSecurity_invalid_shape (cmd : String)
    (h : (checkSecurity cmd).valid = false) :
    ∃ c m, checkSecurity cmd = ⟨false, some c, some m, [], 1⟩ := by
  by_cases h1 : DANGEROUS_CHARS.filter (fun c => cmd.data.contains c) ≠ []
  · exact ⟨_, _, checkSecurity_dangerous cmd h1⟩
  · by_cases h2 : cmd.data.all (fun c => c.toNat ≤ 127)
    · exact absurd h (by rw [checkSecurity_valid cmd h1 h2]; simp)
    · exact ⟨_, _, checkSecurity_nonAscii cmd (not_ne_iff.mp h1) h2⟩

theorem parseCommand_perror_shape (workflows : List WorkflowRec)
    (cmd : String) (v : ValidationResult)
    (h : parseCommand workflows cmd = .perror v) :
    ∃ c m sugg, v = ⟨false, some c, some m, sugg, 1⟩ := by
  simp only [parseCommand] at h
  split at h
  · rename_i hsec
    obtain ⟨c, m, hcs⟩ := checkSecurity_invalid_shape cmd (by simpa using hsec)
    exact ⟨c, m, [], by simp only [hcs] at h; exact (ParseOut.perror.inj h).symm⟩
  · split at h
    · exact ⟨_, _, _, (ParseOut.perror.inj h).symm⟩
    · split at h
      · exact ⟨_, _, _, (ParseOut.perror.inj h).symm⟩
      · split at h
        · split at h
          · exact ⟨_, _, _, (ParseOut.perror.inj h).symm⟩
          · exact ParseOut.noConfusion h
        · split at h
          · exact ⟨_, _, _, (ParseOut.perror.inj h).symm⟩
          · exact ParseOut.noConfusion h

theorem validateName_invalid_shape (agents : List AgentRec)
    (workflows : List WorkflowRec) (name : String) (commandType : String)
    (h : (validateName agents workflows name commandType).valid = false) :
    ∃ c m sugg, validateName agents workflows name commandType =
      ⟨false, some c, some m, sugg, 1⟩ := by
  by_cases h1 : name.length < MIN_NAME_LENGTH
  · exact ⟨_, _, _, by simp only [validateName]; rw [if_pos h1]⟩
  by_cases h2 : MAX_NAME_LENGTH < name.length
  · exact ⟨_, _, _, by simp only [validateName]; rw [if_neg h1, if_pos h2]⟩
  by_cases h3 : namePattern (commandType == "workflow") name = true
  · by_cases h4 : (commandType == "workflow") = true
    · by_cases h5 : isWorkflowName workflows name = true
      · refine absurd h ?_
        have : validateName agents workflows name commandType =
            ⟨true, none, none, [], 0⟩ := by
          simp only [validateName]
          rw [if_neg h1, if_neg h2, if_neg (not_not_intro h3), if_pos h4,
            if_neg (not_not_intro h5)]
        rw [this]
        simp
      · exact ⟨_, _, _, by
          simp only [validateName]
          rw [if_neg h1, if_neg h2, if_neg (not_not_intro h3), if_pos h4,
            if_pos h5]⟩
    · by_cases h6 : isAgentName agents name = true
      · refine absurd h ?_
        have : validateName agents workflows name commandType =
            ⟨true, none, none, [], 0⟩ := by
          simp only [validateName]
          rw [if_neg h1, if_neg h2, if_neg (not_not_intro h3), if_neg h4,
            if_neg (not_not_intro h6)]
        rw [this]
        simp
      · rcases hcm : checkCaseMismatch name (agentNames agents) with _ | cm
        · exact ⟨_, _, _, by
            simp only [validateName]
            rw [if_neg h1, if_neg h2, if_neg (not_not_intro h3), if_neg h4,
              if_pos h6, hcm]⟩
        · exact ⟨_, _, _, by
            simp only [validateName]
            rw [if_neg h1, if_neg h2, if_neg (not_not_intro h3), if_neg h4,
              if_pos h6, hcm]⟩
  · exact ⟨_, _, _, by
      simp only [validateName]
      rw [if_neg h1, if_neg h2, if_pos h3]⟩

theorem routeCommand_parseError (workflows : List WorkflowRec) (raw : String)
    (v : ValidationResult) (h : routeCommand workflows raw = .parseError v) :
    parseCommand workflows (pyStrip raw) = .perror v := by
  simp only [routeCommand] at h
  split at h
  · exact Command.noConfusion h
  split at h
  · exact Command.noConfusion h
  split at h
  · exact Command.noConfusion h
  split at h
  · exact Command.noConfusion h
  split at h
  · exact Command.noConfusion h
  split at h
  · rename_i v' hp
    rw [hp, Command.parseError.inj h]
  · rename_i n hp
    exact Command.noConfusion h
  · rename_i n hp
    exact Command.noConfusion h

/-- Claim C9 counterexample: with an empty catalog the empty command routes
straight to `_load_agent("bmad-master")`, which returns a failure dict
carrying only `success`, `error` and `exit_code` — no `error_code` string
and no `suggestions` list, contradicting the claimed result contract. -/
theorem c9_counterexample :
    (executeM envC [] [] [] "").success = false ∧
    executeM envC [] [] [] "" =
      .agentNotFound "Agent \x27bmad-master\x27 not found in manifest" ∧
    (∀ code msg sugg ec,
      executeM envC [] [] [] "" ≠ .errorResult code msg sugg ec) := by
  refine ⟨by decide, by decide, ?_⟩
  intro code msg sugg ec h
  rw [show executeM envC [] [] [] "" =
    .agentNotFound "Agent \x27bmad-master\x27 not found in manifest"
    from by decide] at h
  exact ExecResult.noConfusion h

/-- Claim C9 (amended): execution is total and every result is
well-formed, except that the two manifest-lookup fallbacks carry only a
message and exit code: every invocation returns either a success result,
or a validation failure carrying an error code, a message and a
suggestions list (exit code 1), or one of the `agentNotFound` /
`workflowNotFound` fallback dicts (message only).  No input — including an
empty catalog or a catalog missing the default agent — escapes these
shapes (and, the embedding being a total function, none crashes). -/
theorem c9_result_contract (env : Env) (agents : List AgentRec)
    (workflows : List WorkflowRec) (tasks : List TaskRec) (command : String) :
    (executeM env agents workflows tasks command).success = true ∨
    (∃ code msg sugg, executeM env agents workflows tasks command =
      .errorResult (some code) (some msg) sugg 1) ∨
    (∃ m, executeM env agents workflows tasks command = .agentNotFound m) ∨
    (∃ m, executeM env agents workflows tasks command =
      .workflowNotFound m) := by
  rcases hr : routeCommand workflows command with _ | k | nm | nm | v
  · simp only [executeM, hr]
    rcases loadAgent_shape env agents "bmad-master" with h | ⟨m, h⟩
    · exact Or.inl h
    · exact Or.inr (Or.inr (Or.inl ⟨m, h⟩))
  · rcases k <;> simp only [executeM, hr] <;> exact Or.inl rfl
  · simp only [executeM, hr]
    rcases hv : (validateName agents workflows nm "agent").valid with _ | _
    · obtain ⟨c, m, sugg, hshape⟩ :=
        validateName_invalid_shape agents workflows nm "agent" hv
      rw [if_pos rfl, hshape]
      exact Or.inr (Or.inl ⟨c, m, sugg, rfl⟩)
    · rw [if_neg (by simp [hv])]
      rcases loadAgent_shape env agents nm with h | ⟨m, h⟩
      · exact Or.inl h
      · exact Or.inr (Or.inr (Or.inl ⟨m, h⟩))
  · simp only [executeM, hr]
    rcases hv : (validateName agents workflows nm "workflow").valid with _ | _
    · obtain ⟨c, m, sugg, hshape⟩ :=
        validateName_invalid_shape agents workflows nm "workflow" hv
      rw [if_pos rfl, hshape]
      exact Or.inr (Or.inl ⟨c, m, sugg, rfl⟩)
    · rw [if_neg (by simp [hv])]
      rcases executeWorkflowR_shape env agents workflows nm with h | ⟨m, h⟩
      · exact Or.inl h
      · exact Or.inr (Or.inr (Or.inr ⟨m, h⟩))
  · simp only [executeM, hr]
    obtain ⟨c, m, sugg, hshape⟩ := parseCommand_perror_shape workflows
      (pyStrip command) v (routeCommand_parseError workflows command v hr)
    rw [hshape]
    exact Or.inr (Or.inl ⟨c, m, sugg, rfl⟩)

/-! ### Lemmas for placeholder resolution -/

theorem replaceAllAux_no_occurrence (pat rep : List Char) :
    ∀ (fuel : Nat) (cs : List Char), cs.length ≤ fuel →
      ¬ (pat <:+: cs) → replaceAllAux pat rep fuel cs = cs := by
  intro fuel
  induction fuel with
  | zero =>
    intro cs hlen _
    cases cs with
    | nil => rfl
    | cons c cs' => simp at hlen
  | succ n ih =>
    intro cs hlen hinf
    cases cs with
    | nil => rfl
    | cons c cs' =>
      have hpre : listStartsWith pat (c :: cs') = false := by
        by_contra hb
        exact hinf ((listStartsWith_iff _ _).mp (by simpa using hb)).isInfix
      simp only [replaceAllAux, hpre]
      rw [ih cs' (by simpa using hlen)
        (fun hi => hinf (hi.trans (List.suffix_cons c cs').isInfix))]
      simp

/-- Content with no occurrence of the pattern is returned byte-for-byte
unchanged by `_resolve_workflow_placeholders`. -/
theorem resolvePlaceholders_id (c : String)
    (h : ¬ (PROJECT_ROOT_PLACEHOLDER.data <:+: c.data)) :
    resolvePlaceholders c = c := by
  cases c with
  | mk d =>
    simp only [resolvePlaceholders]
    rw [replaceAllAux_no_occurrence _ _ _ _ le_rfl h]

/-- Claim C10: every served document body is the file content with each
occurrence of `{project-root}` replaced by `{mcp-resources}` — content
without the placeholder is served unchanged, the replacement is applied at
all four serving sites (workflow YAML, workflow instructions, agent
markdown, agent customization YAML), and the serving pipeline applies no
transformation other than `_resolve_workflow_placeholders`. -/
theorem c10_placeholder_substitution :
    (∀ c : String, ¬ (PROJECT_ROOT_PLACEHOLDER.data <:+: c.data) →
      resolvePlaceholders c = c) ∧
    resolvePlaceholders "a\x7bproject-root\x7db\x7bproject-root\x7dc" =
      "a\x7bmcp-resources\x7db\x7bmcp-resources\x7dc" ∧
    (∀ (env : Env) (agents : List AgentRec) (workflows : List WorkflowRec)
        (wname : String) (w : WorkflowRec) (raw rawi : String),
      workflows.find? (fun x => x.name == some wname) = some w →
      w.path.getD "" ≠ "" →
      (readFileM env (w.path.getD "") = Except.ok raw →
        (executeWorkflowR env agents workflows wname).workflowYaml =
          some (resolvePlaceholders raw)) ∧
      (readFileM env (parentDir (w.path.getD "") ++ "/instructions.md") =
          Except.ok rawi →
        (executeWorkflowR env agents workflows wname).instructions =
          some (resolvePlaceholders rawi))) ∧
    (∀ (env : Env) (agents : List AgentRec) (agentName : String)
        (agent : AgentRec) (raw rawc : String),
      agents.find? (fun a => a.name == some agentName) = some agent →
      (agent.path.getD "" ≠ "" →
        readFileM env (agent.path.getD "") = Except.ok raw →
        (resolvePlaceholders raw).data <:+:
          (loadAgent env agents agentName).content.data) ∧
      (readFileM env ("bmad/_cfg/agents/" ++ agent.module.getD "bmm" ++ "-" ++
          agentName ++ ".customize.yaml") = Except.ok rawc →
        (resolvePlaceholders rawc).data <:+:
          (loadAgent env agents agentName).content.data)) := by
  refine ⟨resolvePlaceholders_id, by decide, ?_, ?_⟩
  · intro env agents workflows wname w raw rawi hfw hpw
    constructor
    · intro hread
      simp only [executeWorkflowR, hfw, ExecResult.workflowYaml]
      rw [if_pos hpw, hread]
    · intro hread
      simp only [executeWorkflowR, hfw, ExecResult.instructions]
      rw [if_pos hpw, hread]
  · intro env agents agentName agent raw rawc hfind
    constructor
    · intro hpath hread
      simp only [loadAgent, hfind, ExecResult.content]
      rw [if_pos hpath, hread]
      exact mem_infix_joinParts _ _ (by simp)
    · intro hread
      simp only [loadAgent, hfind, ExecResult.content]
      rw [hread]
      exact mem_infix_joinParts _ _ (by simp)

/-- Claim C10 witness: a concrete workflow file containing the placeholder
is served with the substitution applied. -/
theorem c10_placeholder_substitution_witness :
    (executeWorkflowR envW [] wfsW "demo").workflowYaml =
      some (resolvePlaceholders "cfg: \x7bproject-root\x7d/x") ∧
    resolvePlaceholders "cfg: \x7bproject-root\x7d/x" =
      "cfg: \x7bmcp-resources\x7d/x" := by
  have h := c10_placeholder_substitution.2.2.1 envW [] wfsW "demo"
    ⟨some "demo", none, none, some "wf/workflow.yaml", none⟩
    "cfg: \x7bproject-root\x7d/x" "" (by decide) (by decide)
  exact ⟨h.1 (by rfl), by decide⟩

/-! ### Lemmas for the fuzzy matcher -/

theorem foldl_preserve {σ α : Type} (P : σ → Prop) (f : σ → α → σ)
    (l : List α) (init : σ) (h0 : P init)
    (hstep : ∀ s x, x ∈ l → P s → P (f s x)) : P (l.foldl f init) := by
  induction l generalizing init with
  | nil => exact h0
  | cons a l ih =>
    exact ih (f init a) (hstep init a (by simp) h0)
      (fun s x hx hs => hstep s x (by simp [hx]) hs)

theorem commonRun_le_left (a : List Char) : ∀ b, commonRun a b ≤ a.length := by
  induction a with
  | nil => intro b; cases b <;> simp [commonRun]
  | cons x xs ih =>
    intro b
    cases b with
    | nil => simp [commonRun]
    | cons y ys =>
      simp only [commonRun, List.length_cons]
      split
      · have := ih ys; omega
      · omega

theorem commonRun_le_right (a : List Char) : ∀ b, commonRun a b ≤ b.length := by
  induction a with
  | nil => intro b; cases b <;> simp [commonRun]
  | cons x xs ih =>
    intro b
    cases b with
    | nil => simp [commonRun]
    | cons y ys =>
      simp only [commonRun, List.length_cons]
      split
      · have := ih ys; omega
      · omega

theorem flmInner_bounds (a b : List Char) (i : Nat) (best : Nat × Nat × Nat)
    (hi : i < a.length)
    (hbest : best.1 + best.2.2 ≤ a.length ∧ best.2.1 + best.2.2 ≤ b.length) :
    (flmInner a b i best).1 + (flmInner a b i best).2.2 ≤ a.length ∧
      (flmInner a b i best).2.1 + (flmInner a b i best).2.2 ≤ b.length := by
  unfold flmInner
  refine foldl_preserve
    (fun (t : Nat × Nat × Nat) => t.1 + t.2.2 ≤ a.length ∧ t.2.1 + t.2.2 ≤ b.length)
    _ _ _ hbest ?_
  intro s j hj hs
  simp only
  split
  · have h1 := commonRun_le_left (a.drop i) (b.drop j)
    have h2 := commonRun_le_right (a.drop i) (b.drop j)
    have hjb : j < b.length := List.mem_range.mp hj
    simp only [List.length_drop] at h1 h2
    refine ⟨?_, ?_⟩ <;> (dsimp only; omega)
  · exact hs

theorem findLongestMatch_bounds (a b : List Char) :
    (findLongestMatch a b).1 + (findLongestMatch a b).2.2 ≤ a.length ∧
      (findLongestMatch a b).2.1 + (findLongestMatch a b).2.2 ≤ b.length := by
  unfold findLongestMatch
  refine foldl_preserve
    (fun (t : Nat × Nat × Nat) => t.1 + t.2.2 ≤ a.length ∧ t.2.1 + t.2.2 ≤ b.length)
    _ _ _ ⟨by simp, by simp⟩ ?_
  intro s i hi hs
  exact flmInner_bounds a b i s (List.mem_range.mp hi) hs

theorem mbSum_le (fuel : Nat) : ∀ (a b : List Char),
    mbSum fuel a b ≤ a.length ∧ mbSum fuel a b ≤ b.length := by
  induction fuel with
  | zero => intro a b; simp [mbSum]
  | succ n ih =>
    intro a b
    simp only [mbSum]
    split
    · simp
    · obtain ⟨hA, hB⟩ := findLongestMatch_bounds a b
      obtain ⟨h1a, h1b⟩ := ih (a.take (findLongestMatch a b).1)
        (b.take (findLongestMatch a b).2.1)
      obtain ⟨h2a, h2b⟩ := ih
        (a.drop ((findLongestMatch a b).1 + (findLongestMatch a b).2.2))
        (b.drop ((findLongestMatch a b).2.1 + (findLongestMatch a b).2.2))
      simp only [List.length_take, List.length_drop] at h1a h1b h2a h2b
      exact ⟨by omega, by omega⟩

theorem fuzzyScore_nonneg (inputName n : String) :
    0 ≤ fuzzyScore inputName n := by
  unfold fuzzyScore seqRatio
  split
  · norm_num
  · positivity

theorem fuzzyScore_le_one (inputName n : String) :
    fuzzyScore inputName n ≤ 1 := by
  unfold fuzzyScore seqRatio
  split
  · norm_num
  · rename_i hne
    set a := (pyLower inputName).data
    set b := (pyLower n).data
    have hsum := mbSum_le (a.length + b.length) a b
    have hpos : (0 : ℚ) < (a.length : ℚ) + b.length := by
      have h0 : 0 < a.length + b.length := Nat.pos_of_ne_zero hne
      exact_mod_cast h0
    rw [div_le_one hpos]
    have h2 : 2 * mbSum (a.length + b.length) a b ≤ a.length + b.length := by
      omega
    exact_mod_cast h2

theorem foldInv_step (inputName : String) (processed : List String)
    (st : Option String × ℚ) (v : String) (h : FoldInv inputName processed st) :
    FoldInv inputName (processed ++ [v])
      (if FUZZY_MATCH_THRESHOLD ≤ fuzzyScore inputName v ∧
          st.2 < fuzzyScore inputName v
        then (some v, fuzzyScore inputName v) else st) := by
  by_cases hc : FUZZY_MATCH_THRESHOLD ≤ fuzzyScore inputName v ∧
    st.2 < fuzzyScore inputName v
  · rw [if_pos hc]
    constructor
    · intro h'; exact Option.noConfusion h'
    · intro m hm
      have hmv : v = m := by simpa using hm
      subst hmv
      have hdom : ∀ n ∈ processed, fuzzyScore inputName n < fuzzyScore inputName v := by
        intro n hn
        rcases hst : st.1 with _ | m0
        · obtain ⟨hs0, hall⟩ := h.1 hst
          exact lt_of_lt_of_le (hall n hn) hc.1
        · obtain ⟨hs, _, hall, _⟩ := h.2 m0 hst
          exact lt_of_le_of_lt (hall n hn) (hs ▸ hc.2)
      refine ⟨rfl, hc.1, ?_, processed, [], rfl, hdom⟩
      intro n hn
      rcases List.mem_append.mp hn with hn | hn
      · exact le_of_lt (hdom n hn)
      · have : n = v := by simpa using hn
        subst this
        exact le_refl _
  · rw [if_neg hc]
    have hc' : FUZZY_MATCH_THRESHOLD ≤ fuzzyScore inputName v →
        fuzzyScore inputName v ≤ st.2 := by
      intro ht
      by_contra hgt
      exact hc ⟨ht, lt_of_not_le hgt⟩
    constructor
    · intro hnone
      obtain ⟨hs0, hall⟩ := h.1 hnone
      refine ⟨hs0, ?_⟩
      intro n hn
      rcases List.mem_append.mp hn with hn | hn
      · exact hall n hn
      · have : n = v := by simpa using hn
        subst this
        by_cases ht : FUZZY_MATCH_THRESHOLD ≤ fuzzyScore inputName n
        · have hle := hc' ht
          rw [hs0] at hle
          have hpos : (0 : ℚ) < FUZZY_MATCH_THRESHOLD := by
            norm_num [FUZZY_MATCH_THRESHOLD]
          linarith [lt_of_le_of_lt hle hpos]
        · exact lt_of_not_le ht
    · intro m hm
      obtain ⟨hs, hthr, hall, pre, suf, hsplit, hpre⟩ := h.2 m hm
      refine ⟨hs, hthr, ?_, pre, suf ++ [v], by rw [hsplit]; simp, hpre⟩
      intro n hn
      rcases List.mem_append.mp hn with hn | hn
      · exact hall n hn
      · have : n = v := by simpa using hn
        subst this
        by_cases ht : FUZZY_MATCH_THRESHOLD ≤ fuzzyScore inputName n
        · have hle := hc' ht
          rw [hs] at hle
          exact hle
        · exact le_of_lt (lt_of_lt_of_le (lt_of_not_le ht) hthr)

theorem foldInv_foldl (inputName : String) :
    ∀ (l processed : List String) (st : Option String × ℚ),
    FoldInv inputName processed st →
    FoldInv inputName (processed ++ l)
      (l.foldl
        (fun best validName =>
          let ratio := fuzzyScore inputName validName
          if FUZZY_MATCH_THRESHOLD ≤ ratio ∧ best.2 < ratio
          then (some validName, ratio) else best) st) := by
  intro l
  induction l with
  | nil => intro processed st h; simpa using h
  | cons v rest ih =>
    intro processed st h
    have h1 := foldInv_step inputName processed st v h
    have h2 := ih (processed ++ [v]) _ h1
    simpa [List.append_assoc] using h2

/-- Evaluate a ratio from the (kernel-computable) total matched size. -/
theorem fuzzyScore_eval (a b : String) (la lb s : Nat)
    (hla : (pyLower a).data.length = la) (hlb : (pyLower b).data.length = lb)
    (hs : mbSum (la + lb) (pyLower a).data (pyLower b).data = s)
    (hne : ¬ la + lb = 0) :
    fuzzyScore a b = 2 * (s : ℚ) / ((la : ℚ) + (lb : ℚ)) := by
  unfold fuzzyScore seqRatio
  rw [hla, hlb, hs, if_neg hne]

set_option maxRecDepth 8000 in
theorem findClosest_analist :
    findClosestMatch "analist" ["analyst", "architect", "dev"] =
      some "analyst" := by
  have e1 := fuzzyScore_eval "analist" "analyst" 7 7 6
    (by decide) (by decide) (by decide) (by decide)
  have e2 := fuzzyScore_eval "analist" "architect" 7 9 3
    (by decide) (by decide) (by decide) (by decide)
  have e3 := fuzzyScore_eval "analist" "dev" 7 3 0
    (by decide) (by decide) (by decide) (by decide)
  simp only [findClosestMatch, List.foldl]
  norm_num [e1, e2, e3, FUZZY_MATCH_THRESHOLD]

set_option maxRecDepth 8000 in
theorem findClosest_xyz :
    findClosestMatch "xyz123" ["analyst", "architect", "dev"] = none := by
  have e1 := fuzzyScore_eval "xyz123" "analyst" 6 7 1
    (by decide) (by decide) (by decide) (by decide)
  have e2 := fuzzyScore_eval "xyz123" "architect" 6 9 0
    (by decide) (by decide) (by decide) (by decide)
  have e3 := fuzzyScore_eval "xyz123" "dev" 6 3 0
    (by decide) (by decide) (by decide) (by decide)
  simp only [findClosestMatch, List.foldl]
  norm_num [e1, e2, e3, FUZZY_MATCH_THRESHOLD]

/-- Claim C7: the fuzzy matcher.  (i) each candidate's normalized
similarity ratio (lowercased input against the lowercased candidate) lies
in `[0, 1]`; (ii) no suggestion is returned iff every candidate scores
below the 0.70 threshold; (iii) a returned suggestion is a candidate
meeting the threshold whose score dominates every candidate, and it is the
first maximal-scoring candidate in catalog order (everything before it
scores strictly lower); (iv)–(v) the documented concrete examples, which
also witness determinism (the matcher is a pure function). -/
theorem c7_fuzzy_matching (inputName : String) (validNames : List String) :
    (∀ n ∈ validNames,
      0 ≤ fuzzyScore inputName n ∧ fuzzyScore inputName n ≤ 1) ∧
    (findClosestMatch inputName validNames = none ↔
      ∀ n ∈ validNames, fuzzyScore inputName n < FUZZY_MATCH_THRESHOLD) ∧
    (∀ m, findClosestMatch inputName validNames = some m →
      m ∈ validNames ∧ FUZZY_MATCH_THRESHOLD ≤ fuzzyScore inputName m ∧
      (∀ n ∈ validNames, fuzzyScore inputName n ≤ fuzzyScore inputName m) ∧
      ∃ pre suf, validNames = pre ++ m :: suf ∧
        ∀ n ∈ pre, fuzzyScore inputName n < fuzzyScore inputName m) ∧
    findClosestMatch "analist" ["analyst", "architect", "dev"] =
      some "analyst" ∧
    findClosestMatch "xyz123" ["analyst", "architect", "dev"] = none := by
  have hinit : FoldInv inputName [] ((none : Option String), (0 : ℚ)) := by
    constructor
    · intro _
      exact ⟨rfl, fun n hn => absurd hn (List.not_mem_nil n)⟩
    · intro m hm
      exact Option.noConfusion hm
  have hinv := foldInv_foldl inputName validNames [] (none, 0) hinit
  simp only [List.nil_append] at hinv
  refine ⟨?_, ⟨?_, ?_⟩, ?_, findClosest_analist, findClosest_xyz⟩
  · intro n _
    exact ⟨fuzzyScore_nonneg inputName n, fuzzyScore_le_one inputName n⟩
  · intro hnone
    simp only [findClosestMatch] at hnone
    exact (hinv.1 hnone).2
  · intro hall
    rcases hst : (validNames.foldl
        (fun best validName =>
          let ratio := fuzzyScore inputName validName
          if FUZZY_MATCH_THRESHOLD ≤ ratio ∧ best.2 < ratio
          then (some validName, ratio) else best)
        ((none : Option String), (0 : ℚ))).1 with _ | m
    · simp only [findClosestMatch, hst]
    · obtain ⟨_, hthr, _, pre, suf, hsplit, _⟩ := hinv.2 m hst
      have hm : m ∈ validNames := by simp [hsplit]
      exact absurd hthr (not_le.mpr (hall m hm))
  · intro m hm
    simp only [findClosestMatch] at hm
    obtain ⟨_, hthr, hall, pre, suf, hsplit, hpre⟩ := hinv.2 m hm
    exact ⟨by simp [hsplit], hthr, hall, pre, suf, hsplit, hpre⟩

/-- Claim C7 witness: the characterization applied at the documented
example — `analyst` is the suggestion for `analist`, meets the threshold,
and dominates the other candidates. -/
theorem c7_fuzzy_matching_witness :
    "analyst" ∈ ["analyst", "architect", "dev"] ∧
    FUZZY_MATCH_THRESHOLD ≤ fuzzyScore "analist" "analyst" ∧
    (∀ n ∈ ["analyst", "architect", "dev"],
      fuzzyScore "analist" n ≤ fuzzyScore "analist" "analyst") := by
  have h := (c7_fuzzy_matching "analist" ["analyst", "architect", "dev"]).2.2.1
    "analyst" findClosest_analist
  exact ⟨h.1, h.2.1, h.2.2.1⟩

end BMAD
